import Mathlib

/-!
Formal model of the policy-resolution engine of the sriov-network-operator
repository: selector matching, VF-range arithmetic, priority-ordered policy
merging, software-bridge reconciliation, the drift oracle and the feature
gate, together with theorems settling the specification claims.

Go functions are shallowly embedded as Lean functions.  Machine integers
(`int`) become `Int`.  Fallible Go code is modelled with an explicit result
type `GoRes` that distinguishes a normal value, an error return and a
runtime panic (Go's `parseRange` panics with an index-out-of-range when its
argument contains no dash but its first dash-field is a valid integer);
panics propagate through callers, which we model with `Option`/`GoRes`
plumbing.

The Go struct types themselves (Interface, VfGroup, InterfaceExt, the
selector, the bridge types, the node state) are declared in a file of the
repository that is not part of the sources at hand; their fields are
modelled from the specification's data-model section together with the
field accesses performed by the source functions.  Likewise the string
constants of the `consts`/`vars` packages are modelled from the
specification's wording.
-/

/-- Result of a Go call: a normal value, an error return (`err != nil`),
or a runtime panic that propagates to the caller. -/
inductive GoRes (α : Type) where
  | ok (a : α) : GoRes α
  | err : GoRes α
  | crash : GoRes α
  deriving Repr, DecidableEq

namespace GoRes

def map {α β : Type} (f : α → β) : GoRes α → GoRes β
  | .ok a => .ok (f a)
  | .err => .err
  | .crash => .crash

end GoRes

/-- Split a character list on a separator character; always returns at
least one (possibly empty) field, like Go `strings.Split`. -/
def splitOnChar (sep : Char) : List Char → List (List Char)
  | [] => [[]]
  | c :: cs =>
    match splitOnChar sep cs with
    | [] => [[c]]
    | w :: ws => if c = sep then [] :: w :: ws else (c :: w) :: ws

/-- Model of Go `strings.Split` with a single-character separator (the
source only splits on `"-"` and `"#"`), implemented by structural
recursion on the character list so that concrete instances evaluate. -/
def goSplit (s : String) (sep : Char) : List String :=
  (splitOnChar sep s.data).map fun cs => ⟨cs⟩

/-- Decimal value of a digit list. -/
def digitsVal (ds : List Char) : Nat :=
  ds.foldl (fun acc c => acc * 10 + (c.toNat - 48)) 0

/-- Model of Go `strconv.Atoi`: optional sign, then a non-empty run of
decimal digits, rejecting any other character and values outside the
64-bit integer range (Go returns an `ErrRange` error for those). -/
def goAtoi (s : String) : Option Int :=
  let (sign, digits) :=
    match s.data with
    | '-' :: rest => ((-1 : Int), rest)
    | '+' :: rest => ((1 : Int), rest)
    | chars => ((1 : Int), chars)
  if digits.isEmpty then none
  else if digits.all Char.isDigit then
    let v : Int := sign * (digitsVal digits : Int)
    if -(2 ^ 63) ≤ v ∧ v ≤ 2 ^ 63 - 1 then some v else none
  else none

/-- `parseRange` from the source: split on `"-"`, `Atoi` the first field
(error return on failure), then index field 1 — which panics when the
string contains no dash — and `Atoi` it. -/
def parseRange (r : String) : GoRes (Int × Int) :=
  match goSplit r '-' with
  | [] => .crash
  | f0 :: rest =>
    match goAtoi f0 with
    | none => .err
    | some rngSt =>
      match rest with
      | [] => .crash
      | f1 :: _ =>
        match goAtoi f1 with
        | none => .err
        | some rngEnd => .ok (rngSt, rngEnd)

/-- `IndexInRange` from the source: parse failure yields `false`
(fail-open); a panic in `parseRange` propagates (`none`). -/
def IndexInRange (i : Int) (r : String) : Option Bool :=
  match parseRange r with
  | .ok (rngSt, rngEnd) => some (decide (rngSt ≤ i ∧ i ≤ rngEnd))
  | .err => some false
  | .crash => none

/-- `SplitDeviceFromRange` from the source: split a `device#range` name on
`"#"`; without a `"#"` the range part is empty. -/
def SplitDeviceFromRange (device : String) : String × String :=
  match goSplit device '#' with
  | f0 :: f1 :: _ => (f0, f1)
  | _ => (device, "")

/-- Sentinel VF index used by `ParseVfRange` when no explicit range is
present. -/
def invalidVfIndex : Int := -1

/-- `ParseVfRange` from the source: returns the device name and the
explicit range bounds, or the sentinel bounds `(-1, -1)` when the name
carries no `#range` suffix. -/
def ParseVfRange (device : String) : GoRes (String × Int × Int) :=
  let (rootDeviceName, splitRange) := SplitDeviceFromRange device
  if splitRange ≠ "" then
    (parseRange splitRange).map fun (rngSt, rngEnd) => (rootDeviceName, rngSt, rngEnd)
  else
    .ok (device, invalidVfIndex, invalidVfIndex)

/-- A VF group, produced by the resolver; fields as in the data model. -/
structure VfGroup where
  ResourceName : String
  DeviceType : String
  VfRange : String
  PolicyName : String
  Mtu : Int
  IsRdma : Bool
  VdpaType : String
  deriving Repr, DecidableEq

/-- Desired configuration of one physical interface. -/
structure Interface where
  PciAddress : String
  Name : String
  Mtu : Int
  LinkType : String
  EswitchMode : String
  NumVfs : Int
  ExternallyManaged : Bool
  VfGroups : List VfGroup
  deriving Repr, DecidableEq

/-- Observed per-VF status inside `InterfaceExt`. -/
structure VirtualFunction where
  VfID : Int
  Driver : String
  Mtu : Int
  GUID : String
  VdpaType : String
  deriving Repr, DecidableEq

/-- Observed state of one physical interface, as reported by the node
agent. -/
structure InterfaceExt where
  PciAddress : String
  Name : String
  Vendor : String
  DeviceID : String
  NetFilter : String
  Mtu : Int
  NumVfs : Int
  LinkType : String
  LinkAdminState : String
  EswitchMode : String
  Driver : String
  VFs : List VirtualFunction
  deriving Repr, DecidableEq

/-- `isVFRangeOverlapping` from the source.  Parse failures are fail-open
(`some false`); a panic propagates as `none`. -/
def VfGroup.isVFRangeOverlapping (gr : VfGroup) (group : VfGroup) : Option Bool :=
  match parseRange gr.VfRange with
  | .err => some false
  | .crash => none
  | .ok (rngSt, rngEnd) =>
    match parseRange group.VfRange with
    | .err => some false
    | .crash => none
    | .ok (rngSt2, rngEnd2) =>
      if rngSt < rngSt2 then
        match IndexInRange rngSt2 gr.VfRange with
        | none => none
        | some true => some true
        | some false => IndexInRange rngEnd2 gr.VfRange
      else
        match IndexInRange rngSt group.VfRange with
        | none => none
        | some true => some true
        | some false => IndexInRange rngEnd group.VfRange

/-- The group-merging loop of `mergeConfigs`: walk the existing groups,
dropping any that shares the incoming group's resource name or overlaps
its range, and collecting the carried-forward groups in order, together
with the `m` flag recording that at least one group was carried. -/
def mergeGroups (g0 : VfGroup) : List VfGroup → Option (Bool × List VfGroup)
  | [] => some (false, [])
  | gr :: rest =>
    if gr.ResourceName = g0.ResourceName then mergeGroups g0 rest
    else
      match gr.isVFRangeOverlapping g0 with
      | none => none
      | some true => mergeGroups g0 rest
      | some false =>
        (mergeGroups g0 rest).map fun (_, gs) => (true, gr :: gs)

/-- `Interface.mergeConfigs` from the source, returning the updated
incoming interface (Go mutates `input` in place).  Go indexes
`input.VfGroups[0]` unconditionally, panicking on an empty group list,
modelled by `none`; a panic inside the overlap check also propagates. -/
def Interface.mergeConfigs (iface : Interface) (input : Interface) (equalPriority : Bool) :
    Option Interface :=
  match input.VfGroups with
  | [] => none
  | g0 :: _ =>
    (mergeGroups g0 iface.VfGroups).map fun (m, carried) =>
      let input1 : Interface := { input with VfGroups := input.VfGroups ++ carried }
      if ¬equalPriority ∧ ¬m then input1
      else
        { input1 with
          Mtu := if input1.Mtu < iface.Mtu then iface.Mtu else input1.Mtu
          NumVfs := if input1.NumVfs < iface.NumVfs then iface.NumVfs else input1.NumVfs }

/-- A carried-forward group: kept by `mergeConfigs` exactly when its
resource name differs from the incoming group's and the overlap check
answers `false`. -/
def keepGroup (g0 : VfGroup) (gr : VfGroup) : Bool :=
  !(gr.ResourceName == g0.ResourceName) && (gr.isVFRangeOverlapping g0 == some false)

/-- `StringInArray` from the source. -/
def StringInArray (val : String) (array : List String) : Bool :=
  array.any (· == val)

/-- Eswitch mode constants, from the source. -/
def ESwithModeLegacy : String := "legacy"

/-- Eswitch mode constant for switchdev, from the source. -/
def ESwithModeSwitchDev : String := "switchdev"

/-- Modelled from the spec: the generic net-device device type of the
`consts` package (missing from the sources at hand). -/
def DeviceTypeNetDevice : String := "netdevice"

/-- Modelled from the spec: the known fast-path/bypass (DPDK) drivers of
the `vars` package (missing from the sources at hand). -/
def DpdkDrivers : List String := ["igb_uio", "vfio-pci", "uio_pci_generic"]

/-- Modelled from the spec: the Ethernet link-type constant of the
`consts` package (missing from the sources at hand). -/
def LinkTypeETH : String := "ETH"

/-- Modelled from the spec: the InfiniBand link-type constant of the
`consts` package (missing from the sources at hand). -/
def LinkTypeIB : String := "IB"

/-- Modelled from the spec: the link-admin-state-down constant of the
`consts` package (missing from the sources at hand). -/
def LinkAdminStateDown : String := "down"

/-- Modelled from the spec: the uninitialized hardware GUID sentinel of
the `consts` package (missing from the sources at hand). -/
def UninitializedNodeGUID : String := "00:00:00:00:00:00:00:00"

/-- ASCII lower-casing of one character. -/
def charToLower (c : Char) : Char :=
  if 65 ≤ c.toNat ∧ c.toNat ≤ 90 then Char.ofNat (c.toNat + 32) else c

/-- Model of Go `strings.EqualFold`, restricted to ASCII case folding
(the strings compared in the source are plain ASCII). -/
def stringEqualFold (s1 s2 : String) : Bool :=
  s1.data.map charToLower == s2.data.map charToLower

/-- `GetEswitchModeFromSpec` from the source: defaults to legacy. -/
def GetEswitchModeFromSpec (ifaceSpec : Interface) : String :=
  if ifaceSpec.EswitchMode = "" then ESwithModeLegacy else ifaceSpec.EswitchMode

/-- `GetEswitchModeFromStatus` from the source: defaults to legacy. -/
def GetEswitchModeFromStatus (ifaceStatus : InterfaceExt) : String :=
  if ifaceStatus.EswitchMode = "" then ESwithModeLegacy else ifaceStatus.EswitchMode

/-- The per-VF body of the group-scan loop of `NeedToUpdateSriov`: walk
the desired VF groups, evaluate the first one whose range contains the
VF's index, and stop (`break`) after it.  `some true` means drift was
reported for this VF, `some false` that the scan fell through, `none`
that `IndexInRange` panicked. -/
def needToUpdateVf (ifaceSpec : Interface) (ifaceStatus : InterfaceExt)
    (vfStatus : VirtualFunction) : List VfGroup → Option Bool
  | [] => some false
  | groupSpec :: rest =>
    match IndexInRange vfStatus.VfID groupSpec.VfRange with
    | none => none
    | some false => needToUpdateVf ifaceSpec ifaceStatus vfStatus rest
    | some true =>
      if vfStatus.Driver = "" then some true
      else if groupSpec.DeviceType ≠ "" ∧ groupSpec.DeviceType ≠ DeviceTypeNetDevice then
        if groupSpec.DeviceType ≠ vfStatus.Driver then some true
        else if groupSpec.VdpaType ≠ vfStatus.VdpaType then some true
        else some false
      else
        if StringInArray vfStatus.Driver DpdkDrivers then some true
        else if vfStatus.Mtu ≠ 0 ∧ groupSpec.Mtu ≠ 0 ∧ vfStatus.Mtu ≠ groupSpec.Mtu then some true
        else if ((stringEqualFold ifaceStatus.LinkType LinkTypeETH ∧ groupSpec.IsRdma) ∨
                  stringEqualFold ifaceStatus.LinkType LinkTypeIB) ∧
                vfStatus.GUID = UninitializedNodeGUID then some true
        else if ifaceSpec.ExternallyManaged then some true
        else if groupSpec.VdpaType ≠ vfStatus.VdpaType then some true
        else some false

/-- The outer per-VF loop of `NeedToUpdateSriov`. -/
def needToUpdateVfs (ifaceSpec : Interface) (ifaceStatus : InterfaceExt) :
    List VirtualFunction → Option Bool
  | [] => some false
  | vfStatus :: rest =>
    match needToUpdateVf ifaceSpec ifaceStatus vfStatus ifaceSpec.VfGroups with
    | none => none
    | some true => some true
    | some false => needToUpdateVfs ifaceSpec ifaceStatus rest

/-- `NeedToUpdateSriov` from the source: the drift oracle.  `none` models
a panic propagating out of `IndexInRange`. -/
def NeedToUpdateSriov (ifaceSpec : Interface) (ifaceStatus : InterfaceExt) : Option Bool :=
  if 0 < ifaceSpec.Mtu ∧ ifaceStatus.Mtu < ifaceSpec.Mtu then some true
  else if GetEswitchModeFromStatus ifaceStatus ≠ GetEswitchModeFromSpec ifaceSpec then some true
  else if ifaceSpec.NumVfs ≠ ifaceStatus.NumVfs then some true
  else if ifaceStatus.LinkAdminState = LinkAdminStateDown then some true
  else if 0 < ifaceSpec.NumVfs then needToUpdateVfs ifaceSpec ifaceStatus ifaceStatus.VFs
  else some false

/-- The NIC selector of a policy; fields as in the data model. -/
structure SriovNetworkNicSelector where
  Vendor : String
  DeviceID : String
  RootDevices : List String
  PfNames : List String
  NetFilter : String
  deriving Repr, DecidableEq

/-- `SriovNetworkNicSelector.IsEmpty` from the source. -/
def SriovNetworkNicSelector.IsEmpty (selector : SriovNetworkNicSelector) : Bool :=
  selector.Vendor == "" && selector.DeviceID == "" &&
    selector.RootDevices.length == 0 && selector.PfNames.length == 0 &&
    selector.NetFilter.length == 0

/-- Simplified model of `NetFilterMatch` for the common single-token
`key:value` form (the Go code extracts the first `key : value` pair with
a regular expression and compares key and value tokens; no claim in this
development depends on this function's behaviour, since every selector we
evaluate carries an empty network-location filter). -/
def NetFilterMatch (netFilter : String) (netValue : String) : Bool :=
  let trimT := fun (cs : List Char) =>
    ((cs.dropWhile Char.isWhitespace).reverse.dropWhile Char.isWhitespace).reverse
  match goSplit netFilter ':', goSplit netValue ':' with
  | [k1, v1], [k2, v2] =>
    let k1 := trimT k1.data; let v1 := trimT v1.data
    let k2 := trimT k2.data; let v2 := trimT v2.data
    if k1 ≠ [] ∧ v1 ≠ [] ∧ k2 ≠ [] ∧ v2 ≠ [] ∧
        ¬k1.any Char.isWhitespace ∧ ¬v1.any Char.isWhitespace ∧
        ¬k2.any Char.isWhitespace ∧ ¬v2.any Char.isWhitespace then
      k1 == k2 && v1 == v2
    else false
  | _, _ => false

/-- `SriovNetworkNicSelector.Selected` from the source: every specified
sub-criterion must hold; unspecified criteria are skipped. -/
def SriovNetworkNicSelector.Selected (selector : SriovNetworkNicSelector)
    (iface : InterfaceExt) : Bool :=
  if selector.Vendor ≠ "" ∧ selector.Vendor ≠ iface.Vendor then false
  else if selector.DeviceID ≠ "" ∧ selector.DeviceID ≠ iface.DeviceID then false
  else if 0 < selector.RootDevices.length ∧
      ¬StringInArray iface.PciAddress selector.RootDevices then false
  else if 0 < selector.PfNames.length ∧
      ¬StringInArray iface.Name (selector.PfNames.map fun p =>
        match goSplit p '#' with
        | f0 :: _ :: _ => f0
        | _ => p) then false
  else if selector.NetFilter ≠ "" ∧ ¬NetFilterMatch selector.NetFilter iface.NetFilter then false
  else true

/-- Uplink interface parameters carried by a bridge config; modelled from
the spec (uplink interface parameters: MTU). -/
structure OVSInterfaceConfig where
  MTURequest : Option Int
  deriving Repr, DecidableEq

/-- OVS bridge parameters; modelled from the spec (the policy's bridge
parameters, copied wholesale). -/
structure OVSBridgeConfig where
  DatapathType : String
  deriving Repr, DecidableEq

/-- One uplink of a desired software bridge. -/
structure OVSUplinkConfigExt where
  PciAddress : String
  Name : String
  Interface : OVSInterfaceConfig
  deriving Repr, DecidableEq

/-- One desired software bridge of a node. -/
structure OVSConfigExt where
  Name : String
  Bridge : OVSBridgeConfig
  Uplinks : List OVSUplinkConfigExt
  deriving Repr, DecidableEq

/-- The uplink part of a policy's bridge spec. -/
structure OVSUplinkConfig where
  Interface : OVSInterfaceConfig
  deriving Repr, DecidableEq

/-- A policy's OVS bridge spec. -/
structure OVSConfig where
  Bridge : OVSBridgeConfig
  Uplink : OVSUplinkConfig
  deriving Repr, DecidableEq

/-- A policy's bridge spec; absent OVS config means no software bridge. -/
structure Bridge where
  OVS : Option OVSConfig
  deriving Repr, DecidableEq

/-- Modelled from the spec: a bridge spec is empty when it carries no OVS
configuration (the `Bridge.IsEmpty` method is missing from the sources at
hand). -/
def Bridge.IsEmpty (b : Bridge) : Bool := b.OVS.isNone

/-- The node-level bridge lists; `none` models a Go nil slice, which is
distinct from an empty non-nil slice. -/
structure Bridges where
  OVS : Option (List OVSConfigExt)
  deriving Repr, DecidableEq

/-- Desired half of a node state. -/
structure SriovNetworkNodeStateSpec where
  Interfaces : List Interface
  Bridges : Bridges
  deriving Repr, DecidableEq

/-- Observed half of a node state. -/
structure SriovNetworkNodeStateStatus where
  Interfaces : List InterfaceExt
  Bridges : Bridges
  deriving Repr, DecidableEq

/-- A node state: desired spec plus observed status. -/
structure SriovNetworkNodeState where
  Spec : SriovNetworkNodeStateSpec
  Status : SriovNetworkNodeStateStatus
  deriving Repr, DecidableEq

/-- A policy; spec fields flattened, `Name` standing for the object
metadata name returned by `GetName`. -/
structure SriovNetworkNodePolicy where
  Name : String
  ResourceName : String
  NumVfs : Int
  DeviceType : String
  Mtu : Int
  IsRdma : Bool
  VdpaType : String
  LinkType : String
  EswitchMode : String
  Priority : Int
  ExternallyManaged : Bool
  NicSelector : SriovNetworkNicSelector
  Bridge : Bridge
  deriving Repr, DecidableEq

/-- The pfName-selector scan of `generatePfNameVfGroup`: find the first
name-selector entry whose device name equals the interface name; an
explicit suffix gives the range, the sentinel bounds or a missing entry
give the default range `0 .. NumVfs-1`; a parse error on any entry
reached aborts with an error. -/
def lookupPfRange (p : SriovNetworkNodePolicy) (ifaceName : String) :
    List String → GoRes (Int × Int)
  | [] => .ok (0, p.NumVfs - 1)
  | selector :: rest =>
    match ParseVfRange selector with
    | .crash => .crash
    | .err => .err
    | .ok (pfName, rngStart, rngEnd) =>
      if pfName = ifaceName then
        if rngStart = invalidVfIndex ∧ rngEnd = invalidVfIndex then .ok (0, p.NumVfs - 1)
        else .ok (rngStart, rngEnd)
      else lookupPfRange p ifaceName rest

/-- `generatePfNameVfGroup` from the source. -/
def SriovNetworkNodePolicy.generatePfNameVfGroup (p : SriovNetworkNodePolicy)
    (iface : InterfaceExt) : GoRes VfGroup :=
  (lookupPfRange p iface.Name p.NicSelector.PfNames).map fun (rngStart, rngEnd) =>
    { ResourceName := p.ResourceName
      DeviceType := p.DeviceType
      VfRange := toString rngStart ++ "-" ++ toString rngEnd
      PolicyName := p.Name
      Mtu := p.Mtu
      IsRdma := p.IsRdma
      VdpaType := p.VdpaType }

/-- The `result` interface that `Apply` builds for one matched observed
interface, before the VF group is attached. -/
def applyResult (p : SriovNetworkNodePolicy) (iface : InterfaceExt) : Interface :=
  { PciAddress := iface.PciAddress
    Name := iface.Name
    Mtu := p.Mtu
    LinkType := p.LinkType
    EswitchMode := p.EswitchMode
    NumVfs := p.NumVfs
    ExternallyManaged := p.ExternallyManaged
    VfGroups := [] }

/-- The find-merge-replace-or-append loop of `Apply` over the desired
interface list: on the first entry with the result's PCI address, merge
the result into it and replace the entry; without a match, append. -/
def upsertInterface (result : Interface) (equalPriority : Bool) :
    List Interface → GoRes (List Interface)
  | [] => .ok [result]
  | e :: rest =>
    if e.PciAddress = result.PciAddress then
      match e.mergeConfigs result equalPriority with
      | none => .crash
      | some merged => .ok (merged :: rest)
    else
      (upsertInterface result equalPriority rest).map fun l => e :: l

/-- The per-observed-interface loop of `Apply`. -/
def applyIfaces (p : SriovNetworkNodePolicy) (equalPriority : Bool) :
    List InterfaceExt → List Interface → GoRes (List Interface)
  | [], spec => .ok spec
  | iface :: rest, spec =>
    if p.NicSelector.Selected iface then
      if 0 < p.NumVfs then
        match p.generatePfNameVfGroup iface with
        | .crash => .crash
        | .err => .err
        | .ok group =>
          match upsertInterface { applyResult p iface with VfGroups := [group] }
              equalPriority spec with
          | .crash => .crash
          | .err => .err
          | .ok spec1 => applyIfaces p equalPriority rest spec1
      else applyIfaces p equalPriority rest spec
    else applyIfaces p equalPriority rest spec

/-- `SriovNetworkNodePolicy.Apply` from the source. -/
def SriovNetworkNodePolicy.Apply (p : SriovNetworkNodePolicy)
    (state : SriovNetworkNodeState) (equalPriority : Bool) : GoRes SriovNetworkNodeState :=
  if p.NicSelector.IsEmpty then .ok state
  else
    (applyIfaces p equalPriority state.Status.Interfaces state.Spec.Interfaces).map fun l =>
      { state with Spec := { state.Spec with Interfaces := l } }

/-- `GenerateBridgeName` from the source. -/
def GenerateBridgeName (iface : InterfaceExt) : String :=
  "br-" ++ ⟨iface.PciAddress.data.map fun c => if c = ':' then '_' else c⟩

/-- The bridge config `ApplyBridgeConfig` builds for one matched
interface. -/
def mkOvsBridge (p : SriovNetworkNodePolicy) (iface : InterfaceExt) (conf : OVSConfig) :
    OVSConfigExt :=
  let intf :=
    if 0 < p.Mtu then { conf.Uplink.Interface with MTURequest := some p.Mtu }
    else conf.Uplink.Interface
  { Name := GenerateBridgeName iface
    Bridge := conf.Bridge
    Uplinks := [{ PciAddress := iface.PciAddress, Name := iface.Name, Interface := intf }] }

/-- Name of the bridge at index `k`, used by the binary search. -/
def ovsNameAt (l : List OVSConfigExt) (k : Nat) : String :=
  ((l.get? k).map OVSConfigExt.Name).getD ""

/-- Model of `slices.BinarySearchFunc` with a name comparison: the
standard half-open binary search loop. -/
def bsLoop (l : List OVSConfigExt) (target : String) (i j : Nat) : Nat :=
  if h : i < j then
    let m := (i + j) / 2
    if ovsNameAt l m < target then bsLoop l target (m + 1) j
    else bsLoop l target i m
  else i
termination_by j - i
decreasing_by
  all_goals omega

/-- The binary-search insert-or-update of `ApplyBridgeConfig`. -/
def upsertOVS (l : List OVSConfigExt) (br : OVSConfigExt) : List OVSConfigExt :=
  let pos := bsLoop l br.Name 0 l.length
  if pos < l.length ∧ ovsNameAt l pos = br.Name then l.set pos br
  else l.insertIdx pos br

/-- One iteration of the interface loop of `ApplyBridgeConfig`: delete
the bridges uplinked to a matched interface when the policy has no OVS
config (collapsing an emptied list to nil), or upsert the bridge built
for it. -/
def bridgeStep (p : SriovNetworkNodePolicy) (b : Bridges) (iface : InterfaceExt) : Bridges :=
  if p.NicSelector.Selected iface then
    match p.Bridge.OVS with
    | none =>
      let l1 := (b.OVS.getD []).filter fun br =>
        !(br.Uplinks.any fun uplink => uplink.PciAddress == iface.PciAddress)
      if l1.length = 0 then { OVS := none } else { OVS := some l1 }
    | some conf => { OVS := some (upsertOVS (b.OVS.getD []) (mkOvsBridge p iface conf)) }
  else b

/-- The interface loop of `ApplyBridgeConfig`. -/
def applyBridgeIfaces (p : SriovNetworkNodePolicy) :
    List InterfaceExt → Bridges → Bridges
  | [], b => b
  | iface :: rest, b => applyBridgeIfaces p rest (bridgeStep p b iface)

/-- `SriovNetworkNodePolicy.ApplyBridgeConfig` from the source, returning
the error (if any) together with the resulting state; validation happens
before any mutation. -/
def SriovNetworkNodePolicy.ApplyBridgeConfig (p : SriovNetworkNodePolicy)
    (state : SriovNetworkNodeState) : Option String × SriovNetworkNodeState :=
  if p.NicSelector.IsEmpty then (none, state)
  else if ¬p.Bridge.IsEmpty ∧ p.EswitchMode ≠ ESwithModeSwitchDev then
    (some "eSwitchMode must be switchdev to use software bridge management", state)
  else if ¬p.Bridge.IsEmpty ∧ p.LinkType ≠ "" ∧ ¬stringEqualFold p.LinkType LinkTypeETH then
    (some "linkType must be eth or ETH to use software bridge management", state)
  else if ¬p.Bridge.IsEmpty ∧ p.ExternallyManaged then
    (some "software bridge management cannot be used when link is externally managed", state)
  else
    (none,
      { state with
        Spec := { state.Spec with
          Bridges := applyBridgeIfaces p state.Status.Interfaces state.Spec.Bridges } })

/-- Modelled from the spec: the feature-gate name constants of the
`consts` package (missing from the sources at hand). -/
def ParallelNicConfigFeatureGate : String := "parallelNicConfig"

/-- Modelled from the spec: feature-gate name constant. -/
def ResourceInjectorMatchConditionFeatureGate : String := "resourceInjectorMatchCondition"

/-- Modelled from the spec: feature-gate name constant. -/
def MetricsExporterFeatureGate : String := "metricsExporter"

/-- Modelled from the spec: feature-gate name constant. -/
def ManageSoftwareBridgesFeatureGate : String := "manageSoftwareBridges"

/-- Modelled from the spec: feature-gate name constant. -/
def BlockDevicePluginUntilConfiguredFeatureGate : String := "blockDevicePluginUntilConfigured"

/-- Modelled from the spec: feature-gate name constant. -/
def MellanoxFirmwareResetFeatureGate : String := "mellanoxFirmwareReset"

/-- A Go `map[string]bool`, modelled as a lookup function (`none` for an
absent key, which a Go map read turns into the zero value `false`). -/
def FeatureMap : Type := String → Option Bool

/-- `DefaultFeatureStates` from `featuregate.go`. -/
def DefaultFeatureStates : FeatureMap := fun f =>
  if f = ParallelNicConfigFeatureGate then some false
  else if f = ResourceInjectorMatchConditionFeatureGate then some false
  else if f = MetricsExporterFeatureGate then some false
  else if f = ManageSoftwareBridgesFeatureGate then some false
  else if f = BlockDevicePluginUntilConfiguredFeatureGate then some true
  else if f = MellanoxFirmwareResetFeatureGate then some false
  else none

/-- The `featureGate` struct from `featuregate.go` (the mutex only guards
concurrent access and has no sequential behaviour). -/
structure featureGate where
  state : FeatureMap
  defaultFeatures : FeatureMap

/-- `New` from `featuregate.go`: empty state, default feature map. -/
def featureGate.New : featureGate :=
  { state := fun _ => none, defaultFeatures := DefaultFeatureStates }

/-- `NewWithDefaultFeatures` from `featuregate.go`. -/
def featureGate.NewWithDefaultFeatures (defaultFeatures : FeatureMap) : featureGate :=
  { state := fun _ => none, defaultFeatures := defaultFeatures }

/-- `IsEnabled` from `featuregate.go`: a map read, `false` for an absent
key. -/
def featureGate.IsEnabled (fg : featureGate) (feature : String) : Bool :=
  (fg.state feature).getD false

/-- `Init` from `featuregate.go`: clone the defaults, then copy the
provided overrides on top. -/
def featureGate.Init (fg : featureGate) (features : FeatureMap) : featureGate :=
  { fg with state := fun k =>
      match features k with
      | some v => some v
      | none => fg.defaultFeatures k }

/-- Two VF groups have disjoint ranges: no VF index lies in both closed
intervals, whenever both range strings parse. -/
def VfRangesDisjoint (a b : VfGroup) : Prop :=
  ∀ s1 e1 s2 e2 : Int, parseRange a.VfRange = .ok (s1, e1) →
    parseRange b.VfRange = .ok (s2, e2) →
    ¬∃ x : Int, s1 ≤ x ∧ x ≤ e1 ∧ s2 ≤ x ∧ x ≤ e2

/-- A desired bridge list sorted strictly by bridge name (sorted with no
duplicate names). -/
def SortedBridges (l : List OVSConfigExt) : Prop :=
  l.Pairwise fun a b => a.Name < b.Name

/- Concrete fixtures used by the counterexamples and witnesses below. -/

/-- Fixture: an observed interface named eth0. -/
def fxIface : InterfaceExt :=
  { PciAddress := "0000:01:00.0", Name := "eth0", Vendor := "15b3", DeviceID := "1017"
    NetFilter := "", Mtu := 1500, NumVfs := 1, LinkType := "ETH", LinkAdminState := "up"
    EswitchMode := "", Driver := "mlx5_core"
    VFs := [{ VfID := 0, Driver := "vfio-pci", Mtu := 0, GUID := "g", VdpaType := "" }] }

/-- Fixture: an all-empty NIC selector. -/
def fxEmptySel : SriovNetworkNicSelector :=
  { Vendor := "", DeviceID := "", RootDevices := [], PfNames := [], NetFilter := "" }

/-- Fixture: a vendor-only NIC selector matching `fxIface`. -/
def fxVendorSel : SriovNetworkNicSelector :=
  { Vendor := "15b3", DeviceID := "", RootDevices := [], PfNames := [], NetFilter := "" }

/-- Fixture: a policy whose selector is empty. -/
def fxPolEmptySel : SriovNetworkNodePolicy :=
  { Name := "pol", ResourceName := "res", NumVfs := 4, DeviceType := "", Mtu := 0
    IsRdma := false, VdpaType := "", LinkType := "", EswitchMode := "", Priority := 99
    ExternallyManaged := false, NicSelector := fxEmptySel, Bridge := { OVS := none } }

/-- Fixture: a node state with one observed interface and empty desired
state. -/
def fxSt : SriovNetworkNodeState :=
  { Spec := { Interfaces := [], Bridges := { OVS := none } }
    Status := { Interfaces := [fxIface], Bridges := { OVS := none } } }

/-- Fixture: desired interface for the C3 counterexample — externally
managed, one VF group with a specific non-netdevice device type that
matches the observed driver. -/
def fxC3Group : VfGroup :=
  { ResourceName := "res", DeviceType := "vfio-pci", VfRange := "0-0", PolicyName := "pol"
    Mtu := 0, IsRdma := false, VdpaType := "" }

/-- Fixture: desired interface spec for the C3 counterexample. -/
def fxC3Spec : Interface :=
  { PciAddress := "0000:01:00.0", Name := "eth0", Mtu := 0, LinkType := ""
    EswitchMode := "", NumVfs := 1, ExternallyManaged := true, VfGroups := [fxC3Group] }

/-- Fixture: generic-device-type group for the C3 witness. -/
def fxW3Group : VfGroup :=
  { ResourceName := "res", DeviceType := "", VfRange := "0-0", PolicyName := "pol"
    Mtu := 0, IsRdma := false, VdpaType := "" }

/-- Fixture: desired interface spec for the C3 witness. -/
def fxW3Spec : Interface :=
  { PciAddress := "0000:01:00.0", Name := "eth0", Mtu := 0, LinkType := ""
    EswitchMode := "", NumVfs := 1, ExternallyManaged := true, VfGroups := [fxW3Group] }

/-- Fixture: observed interface for the C3 witness, VF bound to the
kernel driver. -/
def fxW3Status : InterfaceExt :=
  { fxIface with
    VFs := [{ VfID := 0, Driver := "mlx5_core", Mtu := 0, GUID := "g", VdpaType := "" }] }

/-- Fixture: the VF of `fxW3Status`. -/
def fxW3Vf : VirtualFunction :=
  { VfID := 0, Driver := "mlx5_core", Mtu := 0, GUID := "g", VdpaType := "" }

/-- Fixture: existing interface for the merge examples. -/
def fxMergeExisting : Interface :=
  { PciAddress := "0000:01:00.0", Name := "eth0", Mtu := 1500, LinkType := ""
    EswitchMode := "", NumVfs := 4, ExternallyManaged := false
    VfGroups := [{ ResourceName := "rdma", DeviceType := "", VfRange := "0-3"
                   PolicyName := "p1", Mtu := 0, IsRdma := false, VdpaType := "" }] }

/-- Fixture: incoming interface with a disjoint group. -/
def fxMergeIncoming : Interface :=
  { PciAddress := "0000:01:00.0", Name := "eth0", Mtu := 9000, LinkType := ""
    EswitchMode := "", NumVfs := 8, ExternallyManaged := false
    VfGroups := [{ ResourceName := "net", DeviceType := "", VfRange := "4-7"
                   PolicyName := "p2", Mtu := 0, IsRdma := false, VdpaType := "" }] }

/-- Fixture: the merged result of the two interfaces above. -/
def fxMergeResult : Interface :=
  { PciAddress := "0000:01:00.0", Name := "eth0", Mtu := 9000, LinkType := ""
    EswitchMode := "", NumVfs := 8, ExternallyManaged := false
    VfGroups := [{ ResourceName := "net", DeviceType := "", VfRange := "4-7"
                   PolicyName := "p2", Mtu := 0, IsRdma := false, VdpaType := "" },
                 { ResourceName := "rdma", DeviceType := "", VfRange := "0-3"
                   PolicyName := "p1", Mtu := 0, IsRdma := false, VdpaType := "" }] }

/-- Fixture: VF group with the reversed range 5-2. -/
def fxG52 : VfGroup :=
  { ResourceName := "a", DeviceType := "", VfRange := "5-2", PolicyName := ""
    Mtu := 0, IsRdma := false, VdpaType := "" }

/-- Fixture: VF group with range 5-9. -/
def fxG59 : VfGroup :=
  { ResourceName := "b", DeviceType := "", VfRange := "5-9", PolicyName := ""
    Mtu := 0, IsRdma := false, VdpaType := "" }

/-- Fixture: VF group with range 0-3. -/
def fxG03 : VfGroup :=
  { ResourceName := "a", DeviceType := "", VfRange := "0-3", PolicyName := ""
    Mtu := 0, IsRdma := false, VdpaType := "" }

/-- Fixture: VF group with range 2-5. -/
def fxG25 : VfGroup :=
  { ResourceName := "b", DeviceType := "", VfRange := "2-5", PolicyName := ""
    Mtu := 0, IsRdma := false, VdpaType := "" }

/-- Fixture: policy with vendor selector and zero VFs (C4
counterexample). -/
def fxP4 : SriovNetworkNodePolicy :=
  { Name := "pol", ResourceName := "res", NumVfs := 0, DeviceType := "", Mtu := 0
    IsRdma := false, VdpaType := "", LinkType := "", EswitchMode := "", Priority := 99
    ExternallyManaged := false, NicSelector := fxVendorSel, Bridge := { OVS := none } }

/-- Fixture: the same policy requesting four VFs (C4 witness). -/
def fxP4b : SriovNetworkNodePolicy := { fxP4 with NumVfs := 4 }

/-- Fixture: the VF group `fxP4b` generates for `fxIface`. -/
def fxP4bGroup : VfGroup :=
  { ResourceName := "res", DeviceType := "", VfRange := "0-3", PolicyName := "pol"
    Mtu := 0, IsRdma := false, VdpaType := "" }

/-- Fixture: the node state after `fxP4b.Apply fxSt`. -/
def fxStAfter : SriovNetworkNodeState :=
  { fxSt with Spec := { fxSt.Spec with
      Interfaces := [{ applyResult fxP4b fxIface with VfGroups := [fxP4bGroup] }] } }

/-- Fixture: policy whose pfName selector carries a malformed range
suffix naming a different interface (C7 counterexample). -/
def fxP7 : SriovNetworkNodePolicy :=
  { fxP4b with NicSelector :=
      { Vendor := "", DeviceID := "", RootDevices := [], PfNames := ["eth1#a"], NetFilter := "" } }

/-- Fixture: policy whose pfName selector names eth0 with range 2-3 (C7
witness). -/
def fxP7b : SriovNetworkNodePolicy :=
  { fxP4b with NicSelector :=
      { Vendor := "", DeviceID := "", RootDevices := [], PfNames := ["eth0#2-3"], NetFilter := "" } }

/-- Fixture: the group `fxP7b` generates for eth0. -/
def fxG23 : VfGroup :=
  { ResourceName := "res", DeviceType := "", VfRange := "2-3", PolicyName := "pol"
    Mtu := 0, IsRdma := false, VdpaType := "" }

/-- Fixture: bridge-policy with legacy eswitch mode and a non-empty
bridge spec (violates validation). -/
def fxPBr : SriovNetworkNodePolicy :=
  { fxP4b with
    EswitchMode := "legacy"
    Bridge :=
      { OVS := some
          { Bridge := { DatapathType := "netdev" }
            Uplink := { Interface := { MTURequest := none } } } } }

/-- Fixture: bridge named br-a. -/
def fxBrA : OVSConfigExt :=
  { Name := "br-a", Bridge := { DatapathType := "" }, Uplinks := [] }

/-- Fixture: a replacement bridge also named br-a. -/
def fxBrA2 : OVSConfigExt :=
  { Name := "br-a", Bridge := { DatapathType := "x" }, Uplinks := [] }

/-- Fixture: bridge named br-b. -/
def fxBrB : OVSConfigExt :=
  { Name := "br-b", Bridge := { DatapathType := "" }, Uplinks := [] }

/-! Theorems.  Helper lemmas are shared; each claim is settled by exactly
one theorem (plus, where needed, a counterexample and a witness). -/

/-- C10: a feature gate built by `New` reports every feature disabled
until `Init` runs (even features whose default is true); after
`Init overrides`, `IsEnabled f` is the override when present, else the
default state, else false for unknown names. -/
theorem featureGate_new_init_contract :
    (∀ f, featureGate.New.IsEnabled f = false) ∧
    (∀ overrides f,
      (featureGate.New.Init overrides).IsEnabled f =
        match overrides f with
        | some b => b
        | none =>
          match DefaultFeatureStates f with
          | some b => b
          | none => false) := by
  constructor
  · intro f; rfl
  · intro overrides f
    show ((match overrides f with
           | some v => some v
           | none => DefaultFeatureStates f).getD false) = _
    cases overrides f
    · cases DefaultFeatureStates f <;> rfl
    · rfl

/-- C8: a policy with a non-empty selector and a non-empty bridge spec
that violates a validation rule (eswitch mode not switchdev, or link
type set and not Ethernet, or externally managed) makes
`ApplyBridgeConfig` return an error and leave the node state completely
unchanged. -/
theorem applyBridgeConfig_validation_error (p : SriovNetworkNodePolicy)
    (st : SriovNetworkNodeState)
    (hsel : p.NicSelector.IsEmpty = false)
    (hbr : p.Bridge.IsEmpty = false)
    (hviol : p.EswitchMode ≠ ESwithModeSwitchDev ∨
      (p.LinkType ≠ "" ∧ stringEqualFold p.LinkType LinkTypeETH = false) ∨
      p.ExternallyManaged = true) :
    ∃ msg, p.ApplyBridgeConfig st = (some msg, st) := by
  unfold SriovNetworkNodePolicy.ApplyBridgeConfig
  split_ifs with h0 h1 h2 h3
  · exact absurd h0 (by simp [hsel])
  · exact ⟨_, rfl⟩
  · exact ⟨_, rfl⟩
  · exact ⟨_, rfl⟩
  · exfalso
    rcases hviol with hv | ⟨hv1, hv2⟩ | hv
    · exact h1 ⟨by simp [hbr], hv⟩
    · exact h2 ⟨by simp [hbr], hv1, by simp [hv2]⟩
    · exact h3 ⟨by simp [hbr], hv⟩

/-- C8 witness: the legacy-eswitch bridge policy errors out and leaves
the state untouched. -/
theorem applyBridgeConfig_validation_error_w :
    ∃ msg, fxPBr.ApplyBridgeConfig fxSt = (some msg, fxSt) :=
  applyBridgeConfig_validation_error fxPBr fxSt (by decide) (by decide)
    (Or.inl (by decide))

/-- C2 counterexample: for the all-empty selector, `Selected` returns
true (not false) on a concrete interface. -/
theorem selected_empty_cex :
    fxEmptySel.Vendor = "" ∧ fxEmptySel.DeviceID = "" ∧
    fxEmptySel.RootDevices = [] ∧ fxEmptySel.PfNames = [] ∧
    fxEmptySel.NetFilter = "" ∧
    fxEmptySel.Selected fxIface = true := by decide

/-- C2 amended: a selector with all fields empty satisfies `IsEmpty`,
`Selected` itself returns true for every interface, and the callers
(`Apply`, `ApplyBridgeConfig`) check `IsEmpty` first and skip the policy
without mutating the state, so an empty selector never matches any
interface through them. -/
theorem selected_empty_matches_none_via_isEmpty (sel : SriovNetworkNicSelector)
    (h1 : sel.Vendor = "") (h2 : sel.DeviceID = "") (h3 : sel.RootDevices = [])
    (h4 : sel.PfNames = []) (h5 : sel.NetFilter = "") :
    sel.IsEmpty = true ∧ (∀ iface, sel.Selected iface = true) ∧
    (∀ (p : SriovNetworkNodePolicy) (st : SriovNetworkNodeState) (eqp : Bool),
      p.NicSelector = sel →
      p.Apply st eqp = .ok st ∧ p.ApplyBridgeConfig st = (none, st)) := by
  refine ⟨?_, ?_, ?_⟩
  · simp [SriovNetworkNicSelector.IsEmpty, h1, h2, h3, h4, h5]
  · intro iface
    simp [SriovNetworkNicSelector.Selected, h1, h2, h3, h4, h5]
  · intro p st eqp hp
    constructor
    · simp [SriovNetworkNodePolicy.Apply, hp,
        SriovNetworkNicSelector.IsEmpty, h1, h2, h3, h4, h5]
    · simp [SriovNetworkNodePolicy.ApplyBridgeConfig, hp,
        SriovNetworkNicSelector.IsEmpty, h1, h2, h3, h4, h5]

/-- C2 witness: the amended statement at the concrete empty selector. -/
theorem selected_empty_matches_none_via_isEmpty_w :
    fxEmptySel.IsEmpty = true ∧ fxEmptySel.Selected fxIface = true ∧
    fxPolEmptySel.Apply fxSt false = .ok fxSt :=
  ⟨(selected_empty_matches_none_via_isEmpty fxEmptySel rfl rfl rfl rfl rfl).1,
   (selected_empty_matches_none_via_isEmpty fxEmptySel rfl rfl rfl rfl rfl).2.1 fxIface,
   ((selected_empty_matches_none_via_isEmpty fxEmptySel rfl rfl rfl rfl rfl).2.2
      fxPolEmptySel fxSt false rfl).1⟩

/-- C3 counterexample: an externally-managed desired interface with a VF
inside a matching group's range, where the group's device type is a
specific non-netdevice type equal to the observed driver — the oracle
reports no drift, refuting unconditionality. -/
theorem needToUpdateSriov_ext_cex :
    fxC3Spec.ExternallyManaged = true ∧ 0 < fxC3Spec.NumVfs ∧
    fxC3Spec.VfGroups = [fxC3Group] ∧
    (⟨0, "vfio-pci", 0, "g", ""⟩ : VirtualFunction) ∈ fxIface.VFs ∧
    IndexInRange 0 fxC3Group.VfRange = some true ∧
    NeedToUpdateSriov fxC3Spec fxIface = some false := by decide

/-- C4 counterexample: a policy with a non-empty selector matching an
observed interface but requesting zero VFs adds no desired-interface
entry at all. -/
theorem apply_numVfs_zero_cex :
    fxP4.NicSelector.IsEmpty = false ∧
    fxP4.NicSelector.Selected fxIface = true ∧
    fxSt.Status.Interfaces = [fxIface] ∧
    fxP4.Apply fxSt false = .ok fxSt ∧
    fxSt.Spec.Interfaces = [] := by decide

/-- C5 counterexample: both ranges parse, yet the overlap check answers
true for the pair (5-2, 5-9) whose closed intervals do not intersect
(the first is empty), and answers false with the arguments swapped — so
the check is neither the intersection test nor symmetric on all
parseable ranges. -/
theorem isVFRangeOverlapping_cex :
    parseRange fxG52.VfRange = .ok (5, 2) ∧
    parseRange fxG59.VfRange = .ok (5, 9) ∧
    fxG52.isVFRangeOverlapping fxG59 = some true ∧
    fxG59.isVFRangeOverlapping fxG52 = some false ∧
    ¬∃ x : Int, 5 ≤ x ∧ x ≤ 2 ∧ 5 ≤ x ∧ x ≤ 9 := by
  refine ⟨by decide, by decide, by decide, by decide, ?_⟩
  rintro ⟨x, hx⟩
  omega

/-- C7 counterexample: a pfName entry with a malformed range suffix that
does not even name this interface makes `generatePfNameVfGroup` return
an error, so a no-match lookup can produce an error. -/
theorem generatePfNameVfGroup_err_cex :
    (∀ s ∈ fxP7.NicSelector.PfNames, (SplitDeviceFromRange s).1 ≠ fxIface.Name) ∧
    fxP7.generatePfNameVfGroup fxIface = .err := by decide

/-- Inversion for `GoRes.map`. -/
theorem goResMap_eq_ok {α β : Type} (f : α → β) (x : GoRes α) (b : β) :
    x.map f = .ok b ↔ ∃ a, x = .ok a ∧ f a = b := by
  cases x <;> simp [GoRes.map]

/-- The merge loop keeps exactly the groups that `keepGroup` accepts, in
order, and the `m` flag records that the kept list is non-empty. -/
theorem mergeGroups_eq (g0 : VfGroup) (l : List VfGroup) (m : Bool) (gs : List VfGroup)
    (h : mergeGroups g0 l = some (m, gs)) :
    gs = l.filter (keepGroup g0) ∧ m = !gs.isEmpty := by
  induction l generalizing m gs with
  | nil =>
    simp only [mergeGroups, Option.some.injEq, Prod.mk.injEq] at h
    obtain ⟨hm, hgs⟩ := h
    subst hm hgs
    simp
  | cons gr rest ih =>
    rw [mergeGroups] at h
    by_cases hname : gr.ResourceName = g0.ResourceName
    · rw [if_pos hname] at h
      obtain ⟨h1, h2⟩ := ih _ _ h
      have hk : keepGroup g0 gr = false := by simp [keepGroup, hname]
      refine ⟨?_, h2⟩
      rw [List.filter_cons, hk]
      simpa using h1
    · rw [if_neg hname] at h
      cases hov : gr.isVFRangeOverlapping g0 with
      | none => rw [hov] at h; cases h
      | some bv =>
        rw [hov] at h
        cases bv with
        | true =>
          obtain ⟨h1, h2⟩ := ih _ _ h
          have hk : keepGroup g0 gr = false := by simp [keepGroup, hov]
          refine ⟨?_, h2⟩
          rw [List.filter_cons, hk]
          simpa using h1
        | false =>
          rw [Option.map_eq_some'] at h
          obtain ⟨⟨m', gs'⟩, hrec, heq⟩ := h
          obtain ⟨h1, _⟩ := ih _ _ hrec
          simp only [Prod.mk.injEq] at heq
          obtain ⟨hm, hgs⟩ := heq
          subst hm hgs
          have hk : keepGroup g0 gr = true := by
            simp [keepGroup, hname, hov]
          constructor
          · rw [List.filter_cons, hk]
            simpa using h1
          · simp

/-- Rewriting the Go max idiom. -/
theorem goMax_eq (a b : Int) : (if a < b then b else a) = max a b := by
  rcases le_or_lt b a with h | h
  · rw [if_neg (not_lt.mpr h), max_eq_left h]
  · rw [if_pos h, max_eq_right h.le]

/-- Full characterization of a successful `mergeConfigs`: the result is
the incoming interface with the kept existing groups appended, scalars
blended to the max unless the policy is higher-priority and nothing was
carried forward. -/
theorem mergeConfigs_spec (iface input : Interface) (equalPriority : Bool)
    (g0 : VfGroup) (tl : List VfGroup) (r : Interface)
    (hg : input.VfGroups = g0 :: tl)
    (hr : iface.mergeConfigs input equalPriority = some r) :
    r = (if equalPriority = false ∧ iface.VfGroups.filter (keepGroup g0) = [] then
          { input with VfGroups := input.VfGroups ++ iface.VfGroups.filter (keepGroup g0) }
        else
          { input with
            VfGroups := input.VfGroups ++ iface.VfGroups.filter (keepGroup g0)
            Mtu := max input.Mtu iface.Mtu
            NumVfs := max input.NumVfs iface.NumVfs }) := by
  unfold Interface.mergeConfigs at hr
  rw [hg] at hr
  rw [Option.map_eq_some'] at hr
  obtain ⟨⟨m, carried⟩, hmg, heq⟩ := hr
  obtain ⟨hc, hm⟩ := mergeGroups_eq g0 iface.VfGroups m carried hmg
  subst hc hm
  subst heq
  dsimp only
  rw [← hg]
  by_cases hcase : equalPriority = false ∧ iface.VfGroups.filter (keepGroup g0) = []
  · rw [if_pos hcase]
    have hif : (¬(equalPriority = true) ∧
        ¬((!(iface.VfGroups.filter (keepGroup g0)).isEmpty) = true)) := by
      obtain ⟨hc1, hc2⟩ := hcase
      constructor
      · simp [hc1]
      · simp [hc2]
    rw [if_pos hif]
  · rw [if_neg hcase]
    have hif : ¬(¬(equalPriority = true) ∧
        ¬((!(iface.VfGroups.filter (keepGroup g0)).isEmpty) = true)) := by
      intro ⟨hc1, hc2⟩
      apply hcase
      constructor
      · cases equalPriority
        · rfl
        · exact absurd rfl hc1
      · simpa [List.isEmpty_iff] using hc2
    rw [if_neg hif]
    simp [goMax_eq]

/-- C1: `mergeConfigs` drops every existing group that shares the
incoming group's resource name or overlaps its range, appends the other
existing groups to the incoming list, returns exactly the incoming
configuration when the policy is higher-priority and nothing was carried
forward, and otherwise blends MTU and NumVfs by taking the max. -/
theorem mergeConfigs_contract (iface input : Interface) (equalPriority : Bool)
    (g0 : VfGroup) (tl : List VfGroup) (r : Interface)
    (hg : input.VfGroups = g0 :: tl)
    (hr : iface.mergeConfigs input equalPriority = some r) :
    r.VfGroups = input.VfGroups ++ iface.VfGroups.filter (keepGroup g0) ∧
    (equalPriority = false ∧ iface.VfGroups.filter (keepGroup g0) = [] → r = input) ∧
    (¬(equalPriority = false ∧ iface.VfGroups.filter (keepGroup g0) = []) →
      r.Mtu = max input.Mtu iface.Mtu ∧ r.NumVfs = max input.NumVfs iface.NumVfs ∧
      r.PciAddress = input.PciAddress ∧ r.Name = input.Name ∧
      r.LinkType = input.LinkType ∧ r.EswitchMode = input.EswitchMode ∧
      r.ExternallyManaged = input.ExternallyManaged) := by
  have hspec := mergeConfigs_spec iface input equalPriority g0 tl r hg hr
  by_cases hcase : equalPriority = false ∧ iface.VfGroups.filter (keepGroup g0) = []
  · rw [if_pos hcase] at hspec
    subst hspec
    refine ⟨rfl, ?_, ?_⟩
    · intro _
      obtain ⟨_, hc2⟩ := hcase
      rw [hc2]
      simp
    · intro hcon
      exact absurd hcase hcon
  · rw [if_neg hcase] at hspec
    subst hspec
    exact ⟨rfl, fun hcon => absurd hcon hcase, fun _ => ⟨rfl, rfl, rfl, rfl, rfl, rfl, rfl⟩⟩

/-- C1 witness: the merge of the disjoint rdma/net groups at unequal
priority carries the rdma group forward and blends the scalars. -/
theorem mergeConfigs_contract_w :
    fxMergeExisting.mergeConfigs fxMergeIncoming false = some fxMergeResult ∧
    fxMergeResult.VfGroups =
      fxMergeIncoming.VfGroups ++
        fxMergeExisting.VfGroups.filter
          (keepGroup { ResourceName := "net", DeviceType := "", VfRange := "4-7"
                       PolicyName := "p2", Mtu := 0, IsRdma := false, VdpaType := "" }) ∧
    fxMergeResult.Mtu = max fxMergeIncoming.Mtu fxMergeExisting.Mtu := by
  have h := mergeConfigs_contract fxMergeExisting fxMergeIncoming false
    { ResourceName := "net", DeviceType := "", VfRange := "4-7"
      PolicyName := "p2", Mtu := 0, IsRdma := false, VdpaType := "" }
    [] fxMergeResult (by decide) (by decide)
  exact ⟨by decide, h.1, (h.2.2 (by decide)).1⟩

/-- When the first group whose range contains the VF is generic (empty or
netdevice device type) and the interface is externally managed, the
per-VF scan reports drift: every branch of the generic arm returns
true. -/
theorem needToUpdateVf_first_match_ext (spec : Interface) (status : InterfaceExt)
    (vf : VirtualFunction) (l1 l2 : List VfGroup) (g : VfGroup)
    (hskip : ∀ g1 ∈ l1, IndexInRange vf.VfID g1.VfRange = some false)
    (hmatch : IndexInRange vf.VfID g.VfRange = some true)
    (hgen : g.DeviceType = "" ∨ g.DeviceType = DeviceTypeNetDevice)
    (hext : spec.ExternallyManaged = true) :
    needToUpdateVf spec status vf (l1 ++ g :: l2) = some true := by
  induction l1 with
  | nil =>
    rw [List.nil_append, needToUpdateVf, hmatch]
    have hdt : ¬(g.DeviceType ≠ "" ∧ g.DeviceType ≠ DeviceTypeNetDevice) := by
      rcases hgen with h | h <;> simp [h]
    split_ifs <;> simp_all
  | cons g1 l1' ih =>
    have h1 := hskip g1 (by simp)
    rw [List.cons_append, needToUpdateVf, h1]
    exact ih fun g' hg' => hskip g' (by simp [hg'])

/-- If some VF of the scanned list reports drift and the outer loop ran
to completion (`some b`), the loop's answer is true. -/
theorem needToUpdateVfs_mem_true (spec : Interface) (status : InterfaceExt)
    (vfs : List VirtualFunction) (b : Bool)
    (hres : needToUpdateVfs spec status vfs = some b)
    (vf : VirtualFunction) (hvf : vf ∈ vfs)
    (htrue : needToUpdateVf spec status vf spec.VfGroups = some true) :
    b = true := by
  induction vfs with
  | nil => cases hvf
  | cons v rest ih =>
    rw [needToUpdateVfs] at hres
    rcases List.mem_cons.mp hvf with rfl | hmem
    · rw [htrue] at hres
      exact (Option.some.inj hres).symm
    · cases hv : needToUpdateVf spec status v spec.VfGroups with
      | none => rw [hv] at hres; cases hres
      | some bv =>
        rw [hv] at hres
        cases bv with
        | true => exact (Option.some.inj hres).symm
        | false => exact ih hres hmem

/-- C3 amended: with a positive desired VF count, an observed VF whose
first range-matching desired group has the generic device type (empty or
netdevice) and an externally-managed desired spec force the oracle to
report drift; when the first matching group carries a specific
non-netdevice device type equal to the observed driver, the
externally-managed flag is not consulted and the oracle may report no
drift (see the counterexample). -/
theorem needToUpdateSriov_ext_amended (spec : Interface) (status : InterfaceExt) (b : Bool)
    (vf : VirtualFunction) (l1 l2 : List VfGroup) (g : VfGroup)
    (hres : NeedToUpdateSriov spec status = some b)
    (hvf : vf ∈ status.VFs)
    (hgs : spec.VfGroups = l1 ++ g :: l2)
    (hskip : ∀ g1 ∈ l1, IndexInRange vf.VfID g1.VfRange = some false)
    (hmatch : IndexInRange vf.VfID g.VfRange = some true)
    (hgen : g.DeviceType = "" ∨ g.DeviceType = DeviceTypeNetDevice)
    (hext : spec.ExternallyManaged = true)
    (hnum : 0 < spec.NumVfs) :
    b = true := by
  unfold NeedToUpdateSriov at hres
  split_ifs at hres with h1 h2 h3 h4
  · exact (Option.some.inj hres).symm
  · exact (Option.some.inj hres).symm
  · exact (Option.some.inj hres).symm
  · exact (Option.some.inj hres).symm
  · have ht : needToUpdateVf spec status vf spec.VfGroups = some true := by
      rw [hgs]
      exact needToUpdateVf_first_match_ext spec status vf l1 l2 g hskip hmatch hgen hext
    exact needToUpdateVfs_mem_true spec status status.VFs b hres vf hvf ht

/-- C3 witness: the amended statement at a concrete externally-managed
interface with a generic VF group. -/
theorem needToUpdateSriov_ext_amended_w :
    NeedToUpdateSriov fxW3Spec fxW3Status = some true ∧ true = true :=
  ⟨by decide,
   needToUpdateSriov_ext_amended fxW3Spec fxW3Status true fxW3Vf [] [] fxW3Group
     (by decide) (by decide) (by decide) (by simp) (by decide)
     (Or.inl (by decide)) (by decide) (by decide)⟩

/-- A merge result keeps the incoming interface's PCI address and
name. -/
theorem mergeConfigs_pci_name (e input : Interface) (eqp : Bool) (r : Interface)
    (h : e.mergeConfigs input eqp = some r) :
    r.PciAddress = input.PciAddress ∧ r.Name = input.Name := by
  unfold Interface.mergeConfigs at h
  cases hg : input.VfGroups with
  | nil => rw [hg] at h; cases h
  | cons g0 tl =>
    rw [hg] at h
    rw [Option.map_eq_some'] at h
    obtain ⟨⟨m, carried⟩, _, heq⟩ := h
    subst heq
    constructor <;> dsimp only <;> split <;> rfl

/-- The upsert loop preserves every PCI address already present. -/
theorem upsertInterface_preserves (result : Interface) (eqp : Bool)
    (l l' : List Interface) (a : String)
    (h : upsertInterface result eqp l = .ok l')
    (hmem : ∃ e ∈ l, e.PciAddress = a) :
    ∃ e ∈ l', e.PciAddress = a := by
  induction l generalizing l' with
  | nil => obtain ⟨e, he, _⟩ := hmem; cases he
  | cons e rest ih =>
    rw [upsertInterface] at h
    by_cases hp : e.PciAddress = result.PciAddress
    · rw [if_pos hp] at h
      cases hm : e.mergeConfigs result eqp with
      | none => rw [hm] at h; cases h
      | some merged =>
        rw [hm] at h
        obtain ⟨hmp, _⟩ := mergeConfigs_pci_name e result eqp merged hm
        cases h
        obtain ⟨e', he', ha⟩ := hmem
        rcases List.mem_cons.mp he' with rfl | hr
        · exact ⟨merged, by simp, by rw [hmp, ← hp, ha]⟩
        · exact ⟨e', by simp [hr], ha⟩
    · rw [if_neg hp] at h
      rw [goResMap_eq_ok] at h
      obtain ⟨l1, hrec, heq⟩ := h
      subst heq
      obtain ⟨e', he', ha⟩ := hmem
      rcases List.mem_cons.mp he' with rfl | hr
      · exact ⟨e', by simp, ha⟩
      · obtain ⟨e2, he2, ha2⟩ := ih l1 hrec ⟨e', hr, ha⟩
        exact ⟨e2, by simp [he2], ha2⟩

/-- The upsert loop produces an entry carrying the result's PCI
address. -/
theorem upsertInterface_adds (result : Interface) (eqp : Bool)
    (l l' : List Interface)
    (h : upsertInterface result eqp l = .ok l') :
    ∃ e ∈ l', e.PciAddress = result.PciAddress := by
  induction l generalizing l' with
  | nil =>
    cases h
    exact ⟨result, by simp, rfl⟩
  | cons e rest ih =>
    rw [upsertInterface] at h
    by_cases hp : e.PciAddress = result.PciAddress
    · rw [if_pos hp] at h
      cases hm : e.mergeConfigs result eqp with
      | none => rw [hm] at h; cases h
      | some merged =>
        rw [hm] at h
        cases h
        obtain ⟨hmp, _⟩ := mergeConfigs_pci_name e result eqp merged hm
        exact ⟨merged, by simp, hmp⟩
    · rw [if_neg hp] at h
      rw [goResMap_eq_ok] at h
      obtain ⟨l1, hrec, heq⟩ := h
      subst heq
      obtain ⟨e2, he2, ha2⟩ := ih l1 hrec
      exact ⟨e2, by simp [he2], ha2⟩

/-- The per-interface loop of `Apply` preserves every PCI address already
present in the desired list. -/
theorem applyIfaces_preserves (p : SriovNetworkNodePolicy) (eqp : Bool)
    (obs : List InterfaceExt) (spec l' : List Interface) (a : String)
    (h : applyIfaces p eqp obs spec = .ok l')
    (hmem : ∃ e ∈ spec, e.PciAddress = a) :
    ∃ e ∈ l', e.PciAddress = a := by
  induction obs generalizing spec with
  | nil => cases h; exact hmem
  | cons iface rest ih =>
    rw [applyIfaces] at h
    by_cases hs : p.NicSelector.Selected iface = true
    · rw [if_pos hs] at h
      by_cases hn : 0 < p.NumVfs
      · rw [if_pos hn] at h
        cases hg : p.generatePfNameVfGroup iface with
        | crash => rw [hg] at h; cases h
        | err => rw [hg] at h; cases h
        | ok g =>
          rw [hg] at h
          dsimp only at h
          cases hu : upsertInterface { applyResult p iface with VfGroups := [g] } eqp spec with
          | crash => rw [hu] at h; cases h
          | err => rw [hu] at h; cases h
          | ok spec1 =>
            rw [hu] at h
            exact ih spec1 h (upsertInterface_preserves _ _ _ _ _ hu hmem)
      · rw [if_neg hn] at h
        exact ih spec h hmem
    · rw [if_neg hs] at h
      exact ih spec h hmem

/-- After the loop, every matched observed interface (with positive VF
count) has an entry with its PCI address. -/
theorem applyIfaces_match (p : SriovNetworkNodePolicy) (eqp : Bool)
    (obs : List InterfaceExt) (spec l' : List Interface)
    (h : applyIfaces p eqp obs spec = .ok l')
    (iface : InterfaceExt) (hin : iface ∈ obs)
    (hs : p.NicSelector.Selected iface = true) (hn : 0 < p.NumVfs) :
    ∃ e ∈ l', e.PciAddress = iface.PciAddress := by
  induction obs generalizing spec with
  | nil => cases hin
  | cons iface0 rest ih =>
    rw [applyIfaces] at h
    rcases List.mem_cons.mp hin with rfl | hmem
    · rw [if_pos hs, if_pos hn] at h
      cases hg : p.generatePfNameVfGroup iface with
      | crash => rw [hg] at h; cases h
      | err => rw [hg] at h; cases h
      | ok g =>
        rw [hg] at h
        dsimp only at h
        cases hu : upsertInterface { applyResult p iface with VfGroups := [g] } eqp spec with
        | crash => rw [hu] at h; cases h
        | err => rw [hu] at h; cases h
        | ok spec1 =>
          rw [hu] at h
          have hadd := upsertInterface_adds _ _ _ _ hu
          exact applyIfaces_preserves p eqp rest spec1 l' _ h hadd
    · by_cases hs0 : p.NicSelector.Selected iface0 = true
      · rw [if_pos hs0] at h
        by_cases hn0 : 0 < p.NumVfs
        · rw [if_pos hn0] at h
          cases hg : p.generatePfNameVfGroup iface0 with
          | crash => rw [hg] at h; cases h
          | err => rw [hg] at h; cases h
          | ok g =>
            rw [hg] at h
            dsimp only at h
            cases hu : upsertInterface { applyResult p iface0 with VfGroups := [g] } eqp spec with
            | crash => rw [hu] at h; cases h
            | err => rw [hu] at h; cases h
            | ok spec1 =>
              rw [hu] at h
              exact ih spec1 h hmem
        · rw [if_neg hn0] at h
          exact ih spec h hmem
      · rw [if_neg hs0] at h
        exact ih spec h hmem

/-- Appending case of the upsert loop: with no entry at the result's PCI
address, the result is appended at the end. -/
theorem upsertInterface_not_found (result : Interface) (eqp : Bool) (l : List Interface)
    (hno : ∀ e ∈ l, e.PciAddress ≠ result.PciAddress) :
    upsertInterface result eqp l = .ok (l ++ [result]) := by
  induction l with
  | nil => rfl
  | cons e rest ih =>
    rw [upsertInterface, if_neg (hno e (by simp))]
    rw [ih fun e' he' => hno e' (by simp [he'])]
    rfl

/-- Replacing case of the upsert loop: the first entry at the result's
PCI address is merged into and replaced in place. -/
theorem upsertInterface_found (result : Interface) (eqp : Bool)
    (l1 : List Interface) (e0 : Interface) (l2 : List Interface) (m : Interface)
    (hno : ∀ e ∈ l1, e.PciAddress ≠ result.PciAddress)
    (hp : e0.PciAddress = result.PciAddress)
    (hm : e0.mergeConfigs result eqp = some m) :
    upsertInterface result eqp (l1 ++ e0 :: l2) = .ok (l1 ++ m :: l2) := by
  induction l1 with
  | nil =>
    rw [List.nil_append, upsertInterface, if_pos hp, hm, List.nil_append]
  | cons e rest ih =>
    rw [List.cons_append, upsertInterface, if_neg (hno e (by simp))]
    rw [ih fun e' he' => hno e' (by simp [he'])]
    rfl

/-- C4 amended: for a policy with a non-empty selector **and a positive
requested VF count**, a successful `Apply` leaves an entry with the PCI
address of every matched observed interface in the desired list; for a
single matched observed interface the entry built from the policy is
appended when no entry with that PCI address existed, and is merged via
`mergeConfigs` into the first existing entry and replaces it otherwise.
(With `NumVfs = 0` the policy adds no entry at all — see the
counterexample.) -/
theorem apply_contract_amended :
    (∀ (p : SriovNetworkNodePolicy) (st : SriovNetworkNodeState) (eqp : Bool)
       (st' : SriovNetworkNodeState),
      p.NicSelector.IsEmpty = false → 0 < p.NumVfs →
      p.Apply st eqp = .ok st' →
      ∀ iface ∈ st.Status.Interfaces, p.NicSelector.Selected iface = true →
        ∃ e ∈ st'.Spec.Interfaces, e.PciAddress = iface.PciAddress) ∧
    (∀ (p : SriovNetworkNodePolicy) (st : SriovNetworkNodeState) (eqp : Bool)
       (iface : InterfaceExt) (g : VfGroup),
      p.NicSelector.IsEmpty = false → 0 < p.NumVfs →
      st.Status.Interfaces = [iface] → p.NicSelector.Selected iface = true →
      p.generatePfNameVfGroup iface = .ok g →
      (∀ e ∈ st.Spec.Interfaces, e.PciAddress ≠ iface.PciAddress) →
      p.Apply st eqp = .ok { st with Spec := { st.Spec with
        Interfaces := st.Spec.Interfaces ++
          [{ applyResult p iface with VfGroups := [g] }] } }) ∧
    (∀ (p : SriovNetworkNodePolicy) (st : SriovNetworkNodeState) (eqp : Bool)
       (iface : InterfaceExt) (g : VfGroup) (l1 : List Interface) (e0 : Interface)
       (l2 : List Interface) (m : Interface),
      p.NicSelector.IsEmpty = false → 0 < p.NumVfs →
      st.Status.Interfaces = [iface] → p.NicSelector.Selected iface = true →
      p.generatePfNameVfGroup iface = .ok g →
      st.Spec.Interfaces = l1 ++ e0 :: l2 →
      (∀ e ∈ l1, e.PciAddress ≠ iface.PciAddress) →
      e0.PciAddress = iface.PciAddress →
      e0.mergeConfigs { applyResult p iface with VfGroups := [g] } eqp = some m →
      p.Apply st eqp = .ok { st with Spec := { st.Spec with
        Interfaces := l1 ++ m :: l2 } }) := by
  refine ⟨?_, ?_, ?_⟩
  · intro p st eqp st' hsel hnum happly iface hin hs
    unfold SriovNetworkNodePolicy.Apply at happly
    rw [if_neg (by simp [hsel])] at happly
    rw [goResMap_eq_ok] at happly
    obtain ⟨l', hai, heq⟩ := happly
    subst heq
    exact applyIfaces_match p eqp st.Status.Interfaces st.Spec.Interfaces l' hai
      iface hin hs hnum
  · intro p st eqp iface g hsel hnum hobs hs hgen hno
    unfold SriovNetworkNodePolicy.Apply
    rw [if_neg (by simp [hsel]), hobs]
    rw [applyIfaces, if_pos hs, if_pos hnum, hgen]
    dsimp only
    rw [upsertInterface_not_found _ _ _ (fun e he => by
      simpa using hno e he)]
    rfl
  · intro p st eqp iface g l1 e0 l2 m hsel hnum hobs hs hgen hspec hno hp hm
    unfold SriovNetworkNodePolicy.Apply
    rw [if_neg (by simp [hsel]), hobs]
    rw [applyIfaces, if_pos hs, if_pos hnum, hgen]
    dsimp only
    rw [hspec]
    rw [upsertInterface_found _ _ _ _ _ _ (fun e he => by simpa using hno e he)
      (by simpa using hp) hm]
    rfl

/-- C4 witness: applying the four-VF vendor policy to a state with one
matched observed interface and an empty desired list appends the entry
built from the policy. -/
theorem apply_contract_amended_w :
    fxP4b.NicSelector.IsEmpty = false ∧ 0 < fxP4b.NumVfs ∧
    fxP4b.Apply fxSt false = .ok fxStAfter := by
  refine ⟨by decide, by decide, ?_⟩
  have h := apply_contract_amended.2.1 fxP4b fxSt false fxIface fxP4bGroup
    (by decide) (by decide) (by decide) (by decide) (by decide) (by simp [fxSt])
  exact h

/-- Closed form of the overlap check when both ranges parse. -/
theorem overlap_ok (g1 g2 : VfGroup) (s1 e1 s2 e2 : Int)
    (h1 : parseRange g1.VfRange = .ok (s1, e1))
    (h2 : parseRange g2.VfRange = .ok (s2, e2)) :
    g1.isVFRangeOverlapping g2 = some (
      if s1 < s2 then (decide (s1 ≤ s2 ∧ s2 ≤ e1) || decide (s1 ≤ e2 ∧ e2 ≤ e1))
      else (decide (s2 ≤ s1 ∧ s1 ≤ e2) || decide (s2 ≤ e1 ∧ e1 ≤ e2))) := by
  unfold VfGroup.isVFRangeOverlapping IndexInRange
  rw [h1, h2]
  dsimp only
  by_cases h : s1 < s2
  · rw [if_pos h, if_pos h]
    by_cases ha : s1 ≤ s2 ∧ s2 ≤ e1
    · rw [decide_eq_true ha]
      simp
    · rw [decide_eq_false ha]
      simp
  · rw [if_neg h, if_neg h]
    by_cases ha : s2 ≤ s1 ∧ s1 ≤ e2
    · rw [decide_eq_true ha]
      simp
    · rw [decide_eq_false ha]
      simp

/-- C5 amended: the overlap check is fail-open on `Atoi` parse failures
(note that a range string whose first dash-field is a number but which
has no second field makes the Go code panic instead of returning); and
for two parseable ranges **each with start ≤ end** it returns true
exactly when the closed intervals intersect, and is symmetric.  (For a
parseable reversed range the intersection reading and symmetry both
fail — see the counterexample.) -/
theorem isVFRangeOverlapping_amended :
    (∀ g1 g2 : VfGroup, parseRange g1.VfRange = .err →
      g1.isVFRangeOverlapping g2 = some false) ∧
    (∀ (g1 g2 : VfGroup) (s1 e1 : Int), parseRange g1.VfRange = .ok (s1, e1) →
      parseRange g2.VfRange = .err → g1.isVFRangeOverlapping g2 = some false) ∧
    (∀ (g1 g2 : VfGroup) (s1 e1 s2 e2 : Int),
      parseRange g1.VfRange = .ok (s1, e1) → parseRange g2.VfRange = .ok (s2, e2) →
      s1 ≤ e1 → s2 ≤ e2 →
      ((g1.isVFRangeOverlapping g2 = some true ↔
        ∃ x : Int, s1 ≤ x ∧ x ≤ e1 ∧ s2 ≤ x ∧ x ≤ e2) ∧
       g1.isVFRangeOverlapping g2 = g2.isVFRangeOverlapping g1)) := by
  refine ⟨?_, ?_, ?_⟩
  · intro g1 g2 h1
    unfold VfGroup.isVFRangeOverlapping
    rw [h1]
  · intro g1 g2 s1 e1 h1 h2
    unfold VfGroup.isVFRangeOverlapping
    rw [h1, h2]
  · intro g1 g2 s1 e1 s2 e2 h1 h2 hw1 hw2
    constructor
    · rw [overlap_ok g1 g2 s1 e1 s2 e2 h1 h2]
      constructor
      · intro ht
        have hb := Option.some.inj ht
        by_cases h : s1 < s2
        · rw [if_pos h] at hb
          simp only [Bool.or_eq_true, decide_eq_true_eq] at hb
          rcases hb with ⟨hc1, hc2⟩ | ⟨hc1, hc2⟩
          · exact ⟨s2, by omega⟩
          · exact ⟨e2, by omega⟩
        · rw [if_neg h] at hb
          simp only [Bool.or_eq_true, decide_eq_true_eq] at hb
          rcases hb with ⟨hc1, hc2⟩ | ⟨hc1, hc2⟩
          · exact ⟨s1, by omega⟩
          · exact ⟨e1, by omega⟩
      · rintro ⟨x, hx1, hx2, hx3, hx4⟩
        by_cases h : s1 < s2
        · rw [if_pos h]
          congr 1
          simp only [Bool.or_eq_true, decide_eq_true_eq]
          omega
        · rw [if_neg h]
          congr 1
          simp only [Bool.or_eq_true, decide_eq_true_eq]
          omega
    · rw [overlap_ok g1 g2 s1 e1 s2 e2 h1 h2, overlap_ok g2 g1 s2 e2 s1 e1 h2 h1]
      congr 1
      by_cases h12 : s1 < s2
      · rw [if_pos h12, if_neg (by omega : ¬s2 < s1)]
      · by_cases h21 : s2 < s1
        · rw [if_neg h12, if_pos h21]
        · rw [if_neg h12, if_neg h21]
          have hss : s1 = s2 := by omega
          subst hss
          rw [Bool.eq_iff_iff]
          simp only [Bool.or_eq_true, decide_eq_true_eq]
          omega

/-- C5 witness: the amended intersection reading at the well-formed
ranges 0-3 and 2-5. -/
theorem isVFRangeOverlapping_amended_w :
    (fxG03.isVFRangeOverlapping fxG25 = some true ↔
      ∃ x : Int, 0 ≤ x ∧ x ≤ 3 ∧ 2 ≤ x ∧ x ≤ 5) ∧
    fxG03.isVFRangeOverlapping fxG25 = fxG25.isVFRangeOverlapping fxG03 :=
  isVFRangeOverlapping_amended.2.2 fxG03 fxG25 0 3 2 5 (by decide) (by decide)
    (by decide) (by decide)

/-- A negative overlap answer between two parseable ranges really means
the closed intervals are disjoint (an empty reversed interval is
disjoint from everything). -/
theorem overlap_false_disjoint (a b : VfGroup) (s1 e1 s2 e2 : Int)
    (h1 : parseRange a.VfRange = .ok (s1, e1))
    (h2 : parseRange b.VfRange = .ok (s2, e2))
    (hov : a.isVFRangeOverlapping b = some false) :
    ¬∃ x : Int, s1 ≤ x ∧ x ≤ e1 ∧ s2 ≤ x ∧ x ≤ e2 := by
  rw [overlap_ok a b s1 e1 s2 e2 h1 h2] at hov
  have hb := Option.some.inj hov
  rintro ⟨x, hx1, hx2, hx3, hx4⟩
  by_cases h : s1 < s2
  · rw [if_pos h] at hb
    simp only [Bool.or_eq_false_iff, decide_eq_false_iff_not] at hb
    omega
  · rw [if_neg h] at hb
    simp only [Bool.or_eq_false_iff, decide_eq_false_iff_not] at hb
    omega

/-- The merge loop cannot panic when the incoming group's range and all
existing ranges parse. -/
theorem mergeGroups_total (g0 : VfGroup) (l : List VfGroup)
    (hp0 : ∃ s e, parseRange g0.VfRange = .ok (s, e))
    (hps : ∀ g ∈ l, ∃ s e, parseRange g.VfRange = .ok (s, e)) :
    ∃ mc, mergeGroups g0 l = some mc := by
  induction l with
  | nil => exact ⟨(false, []), rfl⟩
  | cons gr rest ih =>
    obtain ⟨s1, e1, hgr⟩ := hps gr (by simp)
    obtain ⟨s0, e0, hg0⟩ := hp0
    obtain ⟨mc, hmc⟩ := ih fun g hg => hps g (by simp [hg])
    rw [mergeGroups]
    by_cases hname : gr.ResourceName = g0.ResourceName
    · rw [if_pos hname]
      exact ⟨mc, hmc⟩
    · rw [if_neg hname, overlap_ok gr g0 s1 e1 s0 e0 hgr hg0]
      by_cases hov : (if s1 < s0 then
          (decide (s1 ≤ s0 ∧ s0 ≤ e1) || decide (s1 ≤ e0 ∧ e0 ≤ e1))
        else (decide (s0 ≤ s1 ∧ s1 ≤ e0) || decide (s0 ≤ e1 ∧ e1 ≤ e0))) = true
      · rw [hov]
        exact ⟨mc, hmc⟩
      · rw [Bool.not_eq_true] at hov
        rw [hov, hmc]
        exact ⟨_, rfl⟩

/-- C6: if the existing interface's groups have pairwise disjoint
parseable ranges and the incoming interface carries a single group with
a parseable range, the merge succeeds and the resulting group list again
has pairwise disjoint ranges. -/
theorem mergeConfigs_preserves_nonoverlap (iface input : Interface) (eqp : Bool)
    (g0 : VfGroup)
    (hin : input.VfGroups = [g0])
    (hp0 : ∃ s e, parseRange g0.VfRange = .ok (s, e))
    (hps : ∀ g ∈ iface.VfGroups, ∃ s e, parseRange g.VfRange = .ok (s, e))
    (hpw : iface.VfGroups.Pairwise VfRangesDisjoint) :
    ∃ r, iface.mergeConfigs input eqp = some r ∧
      r.VfGroups.Pairwise VfRangesDisjoint := by
  obtain ⟨⟨m, carried⟩, hmg⟩ := mergeGroups_total g0 iface.VfGroups hp0 hps
  have hsome : ∃ r, iface.mergeConfigs input eqp = some r := by
    unfold Interface.mergeConfigs
    rw [hin]
    dsimp only
    rw [hmg]
    exact ⟨_, rfl⟩
  obtain ⟨r, hr⟩ := hsome
  refine ⟨r, hr, ?_⟩
  have hspec := mergeConfigs_spec iface input eqp g0 [] r hin hr
  have hrgroups : r.VfGroups = g0 :: iface.VfGroups.filter (keepGroup g0) := by
    by_cases hcase : eqp = false ∧ iface.VfGroups.filter (keepGroup g0) = []
    · rw [if_pos hcase] at hspec
      subst hspec
      rw [hin]
      rfl
    · rw [if_neg hcase] at hspec
      subst hspec
      rw [hin]
      rfl
  rw [hrgroups]
  rw [List.pairwise_cons]
  constructor
  · intro gr hgr
    obtain ⟨hmem, hkeep⟩ := List.mem_filter.mp hgr
    have hov : gr.isVFRangeOverlapping g0 = some false := by
      simp only [keepGroup, Bool.and_eq_true, Bool.not_eq_true', beq_eq_false_iff_ne,
        beq_iff_eq] at hkeep
      exact hkeep.2
    intro s1 e1 s2 e2 hpg0 hpgr
    have hd := overlap_false_disjoint gr g0 s2 e2 s1 e1 hpgr hpg0 hov
    rintro ⟨x, hx1, hx2, hx3, hx4⟩
    exact hd ⟨x, hx3, hx4, hx1, hx2⟩
  · exact hpw.sublist (List.filter_sublist _)

/-- C6 witness: the disjoint rdma/net merge keeps pairwise-disjoint
ranges. -/
theorem mergeConfigs_preserves_nonoverlap_w :
    ∃ r, fxMergeExisting.mergeConfigs fxMergeIncoming false = some r ∧
      r.VfGroups.Pairwise VfRangesDisjoint :=
  mergeConfigs_preserves_nonoverlap fxMergeExisting fxMergeIncoming false
    { ResourceName := "net", DeviceType := "", VfRange := "4-7"
      PolicyName := "p2", Mtu := 0, IsRdma := false, VdpaType := "" }
    (by decide) ⟨4, 7, by decide⟩
    (by
      intro g hg
      simp only [fxMergeExisting, List.mem_singleton] at hg
      subst hg
      exact ⟨0, 3, by decide⟩)
    (by simp [fxMergeExisting])

/-- The pfName scan returns the default full range when no entry names
this interface (each reached entry parsing cleanly). -/
theorem lookupPfRange_no_match (p : SriovNetworkNodePolicy) (nm : String)
    (l : List String)
    (h : ∀ s ∈ l, ∃ n a b, ParseVfRange s = .ok (n, a, b) ∧ n ≠ nm) :
    lookupPfRange p nm l = .ok (0, p.NumVfs - 1) := by
  induction l with
  | nil => rfl
  | cons s rest ih =>
    obtain ⟨n, a, b, hp, hne⟩ := h s (by simp)
    rw [lookupPfRange, hp]
    dsimp only
    rw [if_neg hne]
    exact ih fun s' hs' => h s' (by simp [hs'])

/-- The pfName scan stops at the first entry naming this interface and
returns its parsed bounds (or the default range on the sentinel). -/
theorem lookupPfRange_match (p : SriovNetworkNodePolicy) (nm : String)
    (l1 : List String) (s : String) (l2 : List String) (rs re : Int)
    (hno : ∀ s1 ∈ l1, ∃ n a b, ParseVfRange s1 = .ok (n, a, b) ∧ n ≠ nm)
    (hs : ParseVfRange s = .ok (nm, rs, re)) :
    lookupPfRange p nm (l1 ++ s :: l2) =
      if rs = invalidVfIndex ∧ re = invalidVfIndex then .ok (0, p.NumVfs - 1)
      else .ok (rs, re) := by
  induction l1 with
  | nil =>
    rw [List.nil_append, lookupPfRange, hs]
    dsimp only
    rw [if_pos rfl]
  | cons s1 rest ih =>
    obtain ⟨n, a, b, hp, hne⟩ := hno s1 (by simp)
    rw [List.cons_append, lookupPfRange, hp]
    dsimp only
    rw [if_neg hne]
    exact ih fun s' hs' => hno s' (by simp [hs'])

/-- C7 amended: provided every pfName-selector entry parses via
`ParseVfRange` without error, `generatePfNameVfGroup` returns (without
error) a VfGroup carrying the policy's resource name, device type, MTU,
RDMA flag and VDPA type, whose VfRange is the canonical decimal
rendering of the first matching entry's explicit bounds, or the default
range `0-(NumVfs-1)` when the first matching entry has no suffix or no
entry matches at all.  (A malformed suffix on any reached entry — even a
non-matching one — instead yields an error, and an explicit suffix is
re-rendered, not copied verbatim: see the counterexample.) -/
theorem generatePfNameVfGroup_amended :
    (∀ (p : SriovNetworkNodePolicy) (iface : InterfaceExt),
      (∀ s ∈ p.NicSelector.PfNames,
        ∃ n a b, ParseVfRange s = .ok (n, a, b) ∧ n ≠ iface.Name) →
      p.generatePfNameVfGroup iface = .ok
        { ResourceName := p.ResourceName, DeviceType := p.DeviceType
          VfRange := toString (0 : Int) ++ "-" ++ toString (p.NumVfs - 1)
          PolicyName := p.Name, Mtu := p.Mtu, IsRdma := p.IsRdma
          VdpaType := p.VdpaType }) ∧
    (∀ (p : SriovNetworkNodePolicy) (iface : InterfaceExt) (l1 : List String)
       (s : String) (l2 : List String) (rs re : Int),
      p.NicSelector.PfNames = l1 ++ s :: l2 →
      (∀ s1 ∈ l1, ∃ n a b, ParseVfRange s1 = .ok (n, a, b) ∧ n ≠ iface.Name) →
      ParseVfRange s = .ok (iface.Name, rs, re) →
      p.generatePfNameVfGroup iface = .ok
        { ResourceName := p.ResourceName, DeviceType := p.DeviceType
          VfRange := if rs = invalidVfIndex ∧ re = invalidVfIndex
            then toString (0 : Int) ++ "-" ++ toString (p.NumVfs - 1)
            else toString rs ++ "-" ++ toString re
          PolicyName := p.Name, Mtu := p.Mtu, IsRdma := p.IsRdma
          VdpaType := p.VdpaType }) := by
  constructor
  · intro p iface h
    unfold SriovNetworkNodePolicy.generatePfNameVfGroup
    rw [lookupPfRange_no_match p iface.Name p.NicSelector.PfNames h]
    rfl
  · intro p iface l1 s l2 rs re hpf hno hs
    unfold SriovNetworkNodePolicy.generatePfNameVfGroup
    rw [hpf, lookupPfRange_match p iface.Name l1 s l2 rs re hno hs]
    by_cases hc : rs = invalidVfIndex ∧ re = invalidVfIndex
    · rw [if_pos hc, if_pos hc]
      rfl
    · rw [if_neg hc, if_neg hc]
      rfl

/-- C7 witness: the entry `eth0#2-3` yields the group with range 2-3 for
eth0. -/
theorem generatePfNameVfGroup_amended_w :
    fxP7b.generatePfNameVfGroup fxIface = .ok fxG23 := by
  have h := generatePfNameVfGroup_amended.2 fxP7b fxIface [] "eth0#2-3" [] 2 3
    (by decide) (by simp) (by decide)
  exact h.trans (by decide)

/-- The indexed bridge name agrees with `List.get` in bounds. -/
theorem ovsNameAt_eq_get (l : List OVSConfigExt) (k : Nat) (h : k < l.length) :
    ovsNameAt l k = (l.get ⟨k, h⟩).Name := by
  unfold ovsNameAt
  rw [List.get?_eq_get h]
  rfl

/-- In a sorted bridge list, names are strictly increasing with the
index. -/
theorem sorted_names_lt (l : List OVSConfigExt) (hs : SortedBridges l)
    (i j : Nat) (hij : i < j) (hj : j < l.length) :
    ovsNameAt l i < ovsNameAt l j := by
  have hi : i < l.length := lt_trans hij hj
  rw [ovsNameAt_eq_get l i hi, ovsNameAt_eq_get l j hj]
  exact List.pairwise_iff_get.mp hs ⟨i, hi⟩ ⟨j, hj⟩ hij

/-- Loop invariant of the binary search: on a sorted list it returns the
lower-bound position for the target name. -/
theorem bsLoop_inv (l : List OVSConfigExt) (t : String) (hs : SortedBridges l) :
    ∀ n i j, j - i ≤ n → i ≤ j → j ≤ l.length →
    (∀ k, k < i → ovsNameAt l k < t) →
    (∀ k, j ≤ k → k < l.length → t ≤ ovsNameAt l k) →
    i ≤ bsLoop l t i j ∧ bsLoop l t i j ≤ j ∧
    (∀ k, k < bsLoop l t i j → ovsNameAt l k < t) ∧
    (∀ k, bsLoop l t i j ≤ k → k < l.length → t ≤ ovsNameAt l k) := by
  intro n
  induction n with
  | zero =>
    intro i j hn hij hj hlo hhi
    have hne : ¬i < j := by omega
    rw [bsLoop, dif_neg hne]
    exact ⟨le_refl _, hij, hlo, fun k hk hkl => hhi k (by omega) hkl⟩
  | succ n ih =>
    intro i j hn hij hj hlo hhi
    by_cases h : i < j
    · rw [bsLoop, dif_pos h]
      dsimp only
      by_cases hcmp : ovsNameAt l ((i + j) / 2) < t
      · rw [if_pos hcmp]
        have hlo' : ∀ k, k < (i + j) / 2 + 1 → ovsNameAt l k < t := by
          intro k hk
          rcases Nat.lt_succ_iff_lt_or_eq.mp hk with hk' | hk'
          · exact lt_trans (sorted_names_lt l hs k _ hk' (by omega)) hcmp
          · rw [hk']
            exact hcmp
        obtain ⟨ha, hb, hc, hd⟩ := ih ((i + j) / 2 + 1) j (by omega) (by omega) hj hlo' hhi
        exact ⟨by omega, hb, hc, hd⟩
      · rw [if_neg hcmp]
        have hhi' : ∀ k, (i + j) / 2 ≤ k → k < l.length → t ≤ ovsNameAt l k := by
          intro k hk hkl
          rcases eq_or_lt_of_le hk with hk' | hk'
          · rw [← hk']
            exact not_lt.mp hcmp
          · exact le_trans (not_lt.mp hcmp) (le_of_lt (sorted_names_lt l hs _ k hk' hkl))
        obtain ⟨ha, hb, hc, hd⟩ := ih i ((i + j) / 2) (by omega) (by omega) (by omega) hlo hhi'
        exact ⟨ha, by omega, hc, hd⟩
    · rw [bsLoop, dif_neg h]
      exact ⟨le_refl _, hij, hlo, fun k hk hkl => hhi k (by omega) hkl⟩

/-- The full-list binary search returns the lower bound of the target
name. -/
theorem bsLoop_pos (l : List OVSConfigExt) (t : String) (hs : SortedBridges l) :
    bsLoop l t 0 l.length ≤ l.length ∧
    (∀ k, k < bsLoop l t 0 l.length → ovsNameAt l k < t) ∧
    (∀ k, bsLoop l t 0 l.length ≤ k → k < l.length → t ≤ ovsNameAt l k) := by
  obtain ⟨_, h2, h3, h4⟩ := bsLoop_inv l t hs l.length 0 l.length (by omega) (by omega)
    le_rfl (fun k hk => absurd hk (by omega)) (fun k hk hkl => absurd hkl (by omega))
  exact ⟨h2, h3, h4⟩

/-- When a bridge with the target name exists in the sorted list, the
upsert overwrites exactly that position in place. -/
theorem upsertOVS_found (l : List OVSConfigExt) (br : OVSConfigExt) (k : Nat)
    (hk : k < l.length) (hs : SortedBridges l)
    (hname : (l.get ⟨k, hk⟩).Name = br.Name) :
    upsertOVS l br = l.set k br := by
  obtain ⟨hle, hlo, hhi⟩ := bsLoop_pos l br.Name hs
  have hkname : ovsNameAt l k = br.Name := by rw [ovsNameAt_eq_get l k hk, hname]
  have hpk : bsLoop l br.Name 0 l.length = k := by
    rcases lt_trichotomy (bsLoop l br.Name 0 l.length) k with h | h | h
    · have h2 := hhi _ le_rfl (by omega)
      have h3 := sorted_names_lt l hs _ k h hk
      rw [hkname] at h3
      exact absurd h3 (not_lt.mpr h2)
    · exact h
    · have hcon := hlo k h
      rw [hkname] at hcon
      exact absurd hcon (lt_irrefl _)
  unfold upsertOVS
  rw [hpk, if_pos ⟨hk, hkname⟩]

/-- When no bridge has the target name, the upsert inserts at the
lower-bound position, with all earlier names smaller and all later names
larger. -/
theorem upsertOVS_not_found (l : List OVSConfigExt) (br : OVSConfigExt)
    (hs : SortedBridges l) (hnone : ∀ e ∈ l, e.Name ≠ br.Name) :
    ∃ pos, pos ≤ l.length ∧ upsertOVS l br = l.insertIdx pos br ∧
      (∀ k, k < pos → ovsNameAt l k < br.Name) ∧
      (∀ k, pos ≤ k → k < l.length → br.Name < ovsNameAt l k) := by
  obtain ⟨hle, hlo, hhi⟩ := bsLoop_pos l br.Name hs
  have hstrict : ∀ k, bsLoop l br.Name 0 l.length ≤ k → k < l.length →
      br.Name < ovsNameAt l k := by
    intro k h1 h2
    have hge := hhi k h1 h2
    have hne : ovsNameAt l k ≠ br.Name := by
      rw [ovsNameAt_eq_get l k h2]
      exact hnone _ (List.get_mem l k h2)
    exact lt_of_le_of_ne hge (Ne.symm hne)
  refine ⟨bsLoop l br.Name 0 l.length, hle, ?_, hlo, hstrict⟩
  unfold upsertOVS
  rw [if_neg ?_]
  rintro ⟨hc1, hc2⟩
  exact absurd hc2 (ne_of_gt (hstrict _ le_rfl hc1))

/-- Inserting at an in-bounds position is splicing between take and
drop. -/
theorem insertIdx_take_drop {α : Type} (l : List α) (p : Nat) (h : p ≤ l.length) (a : α) :
    l.insertIdx p a = l.take p ++ a :: l.drop p := by
  induction l generalizing p with
  | nil =>
    have hp : p = 0 := by simpa using h
    subst hp
    rfl
  | cons x xs ih =>
    cases p with
    | zero => rfl
    | succ n =>
      rw [List.insertIdx_succ_cons, List.take_succ_cons, List.drop_succ_cons,
        List.cons_append, ih n (by simpa using h)]

/-- Overwriting the entry that already carries the new bridge's name
keeps the list sorted. -/
theorem sorted_set_same_name (l : List OVSConfigExt) (br : OVSConfigExt) (k : Nat)
    (hk : k < l.length) (hs : SortedBridges l)
    (hname : (l.get ⟨k, hk⟩).Name = br.Name) :
    SortedBridges (l.set k br) := by
  have hmono := List.pairwise_iff_get.mp hs
  rw [SortedBridges, List.pairwise_iff_get]
  intro i j hij
  have hleni : (i : Nat) < l.length := by
    have := i.isLt
    simpa [List.length_set] using this
  have hlenj : (j : Nat) < l.length := by
    have := j.isLt
    simpa [List.length_set] using this
  have hij' : (i : Nat) < (j : Nat) := hij
  rw [List.get_eq_getElem, List.get_eq_getElem, List.getElem_set, List.getElem_set]
  by_cases hki : k = (i : Nat)
  · rw [if_pos hki]
    have hkj : ¬k = (j : Nat) := by omega
    rw [if_neg hkj]
    have := hmono ⟨k, hk⟩ ⟨(j : Nat), hlenj⟩ (Fin.mk_lt_mk.mpr (by omega))
    rw [hname] at this
    simpa using this
  · rw [if_neg hki]
    by_cases hkj : k = (j : Nat)
    · rw [if_pos hkj]
      have := hmono ⟨(i : Nat), hleni⟩ ⟨k, hk⟩ (Fin.mk_lt_mk.mpr (by omega))
      rw [hname] at this
      simpa using this
    · rw [if_neg hkj]
      have := hmono ⟨(i : Nat), hleni⟩ ⟨(j : Nat), hlenj⟩ (Fin.mk_lt_mk.mpr hij')
      simpa using this

/-- Inserting at the lower-bound position keeps the list sorted. -/
theorem sorted_insertIdx (l : List OVSConfigExt) (br : OVSConfigExt) (pos : Nat)
    (hle : pos ≤ l.length) (hs : SortedBridges l)
    (hlo : ∀ k, k < pos → ovsNameAt l k < br.Name)
    (hhi : ∀ k, pos ≤ k → k < l.length → br.Name < ovsNameAt l k) :
    SortedBridges (l.take pos ++ br :: l.drop pos) := by
  have hmono := List.pairwise_iff_get.mp hs
  have hdropName : ∀ b ∈ l.drop pos, br.Name < b.Name := by
    intro b hb
    obtain ⟨idx, hidx⟩ := List.mem_iff_get.mp hb
    have hlen : (idx : Nat) < (l.drop pos).length := idx.isLt
    have hxlen : pos + (idx : Nat) < l.length := by
      have hdl : (List.drop pos l).length = l.length - pos := List.length_drop pos l
      omega
    simp only [List.get_eq_getElem, List.getElem_drop] at hidx
    have := hhi (pos + (idx : Nat)) (by omega) hxlen
    rw [ovsNameAt_eq_get l _ hxlen] at this
    rw [List.get_eq_getElem] at this
    rw [hidx] at this
    exact this
  rw [SortedBridges, List.pairwise_append]
  refine ⟨hs.sublist (List.take_sublist _ _), ?_, ?_⟩
  · rw [List.pairwise_cons]
    exact ⟨hdropName, hs.sublist (List.drop_sublist _ _)⟩
  · intro a ha b hb
    obtain ⟨ia, hia⟩ := List.mem_iff_get.mp ha
    have hlena : (ia : Nat) < (l.take pos).length := ia.isLt
    have hia_pos : (ia : Nat) < pos := by
      have hdt : (List.take pos l).length = min pos l.length := List.length_take pos l
      omega
    have hia_len : (ia : Nat) < l.length := by omega
    simp only [List.get_eq_getElem, List.getElem_take] at hia
    have haname : a.Name < br.Name := by
      have := hlo (ia : Nat) hia_pos
      rw [ovsNameAt_eq_get l _ hia_len, List.get_eq_getElem] at this
      rw [hia] at this
      exact this
    rcases List.mem_cons.mp hb with rfl | hbdrop
    · exact haname
    · exact lt_trans haname (hdropName b hbdrop)

/-- The binary-search upsert keeps the bridge list sorted. -/
theorem upsertOVS_sorted (l : List OVSConfigExt) (br : OVSConfigExt)
    (hs : SortedBridges l) : SortedBridges (upsertOVS l br) := by
  by_cases hex : ∃ k, ∃ hk : k < l.length, (l.get ⟨k, hk⟩).Name = br.Name
  · obtain ⟨k, hk, hname⟩ := hex
    rw [upsertOVS_found l br k hk hs hname]
    exact sorted_set_same_name l br k hk hs hname
  · have hnone : ∀ e ∈ l, e.Name ≠ br.Name := by
      intro e he hcon
      obtain ⟨⟨k, hk⟩, hget⟩ := List.mem_iff_get.mp he
      exact hex ⟨k, hk, by rw [hget]; exact hcon⟩
    obtain ⟨pos, hle, heq, hlo, hhi⟩ := upsertOVS_not_found l br hs hnone
    rw [heq, insertIdx_take_drop l pos hle br]
    exact sorted_insertIdx l br pos hle hs hlo hhi

/-- One bridge-reconciliation step keeps the bridge list sorted. -/
theorem bridgeStep_sorted (p : SriovNetworkNodePolicy) (b : Bridges)
    (iface : InterfaceExt) (hs : SortedBridges (b.OVS.getD [])) :
    SortedBridges ((bridgeStep p b iface).OVS.getD []) := by
  unfold bridgeStep
  by_cases hsel : p.NicSelector.Selected iface = true
  · rw [if_pos hsel]
    cases hbr : p.Bridge.OVS with
    | none =>
      dsimp only
      by_cases hlen : ((b.OVS.getD []).filter fun br =>
          !(br.Uplinks.any fun uplink => uplink.PciAddress == iface.PciAddress)).length = 0
      · rw [if_pos hlen]
        exact List.Pairwise.nil
      · rw [if_neg hlen]
        exact hs.filter _
    | some conf =>
      exact upsertOVS_sorted _ _ hs
  · rw [if_neg hsel]
    exact hs

/-- The whole bridge-reconciliation loop keeps the bridge list sorted. -/
theorem applyBridgeIfaces_sorted (p : SriovNetworkNodePolicy)
    (obs : List InterfaceExt) (b : Bridges)
    (hs : SortedBridges (b.OVS.getD [])) :
    SortedBridges ((applyBridgeIfaces p obs b).OVS.getD []) := by
  induction obs generalizing b with
  | nil => exact hs
  | cons iface rest ih =>
    rw [applyBridgeIfaces]
    exact ih _ (bridgeStep_sorted p b iface hs)

/-- C9: sorted-by-name with no duplicates is an invariant of every
successful `ApplyBridgeConfig` call; an upsert of an already-present
name overwrites that position in place without changing the length, a
new name is spliced in at its sorted position (all smaller names before
it, all larger after), and the deletion branch collapses an emptied
list to the absent/nil state. -/
theorem bridge_list_sorted_invariant :
    (∀ (p : SriovNetworkNodePolicy) (st st' : SriovNetworkNodeState),
      SortedBridges (st.Spec.Bridges.OVS.getD []) →
      p.ApplyBridgeConfig st = (none, st') →
      SortedBridges (st'.Spec.Bridges.OVS.getD [])) ∧
    (∀ (l : List OVSConfigExt) (br : OVSConfigExt) (k : Nat) (hk : k < l.length),
      SortedBridges l → (l.get ⟨k, hk⟩).Name = br.Name →
      upsertOVS l br = l.set k br ∧ (l.set k br).length = l.length) ∧
    (∀ (l : List OVSConfigExt) (br : OVSConfigExt),
      SortedBridges l → (∀ e ∈ l, e.Name ≠ br.Name) →
      ∃ pos, pos ≤ l.length ∧
        upsertOVS l br = l.take pos ++ br :: l.drop pos ∧
        SortedBridges (l.take pos ++ br :: l.drop pos) ∧
        (∀ k, k < pos → ovsNameAt l k < br.Name) ∧
        (∀ k, pos ≤ k → k < l.length → br.Name < ovsNameAt l k)) ∧
    (∀ (p : SriovNetworkNodePolicy) (b : Bridges) (iface : InterfaceExt),
      p.NicSelector.Selected iface = true → p.Bridge.OVS = none →
      ((b.OVS.getD []).filter fun br =>
        !(br.Uplinks.any fun uplink => uplink.PciAddress == iface.PciAddress)) = [] →
      bridgeStep p b iface = { OVS := none }) := by
  refine ⟨?_, ?_, ?_, ?_⟩
  · intro p st st' hs h
    unfold SriovNetworkNodePolicy.ApplyBridgeConfig at h
    split_ifs at h
    · simp only [Prod.mk.injEq] at h
      rw [← h.2]
      exact hs
    · simp at h
    · simp at h
    · simp at h
    · simp only [Prod.mk.injEq] at h
      rw [← h.2]
      exact applyBridgeIfaces_sorted p st.Status.Interfaces st.Spec.Bridges hs
  · intro l br k hk hs hname
    exact ⟨upsertOVS_found l br k hk hs hname, List.length_set l k br⟩
  · intro l br hs hnone
    obtain ⟨pos, hle, heq, hlo, hhi⟩ := upsertOVS_not_found l br hs hnone
    refine ⟨pos, hle, ?_, sorted_insertIdx l br pos hle hs hlo hhi, hlo, hhi⟩
    rw [heq, insertIdx_take_drop l pos hle br]
  · intro p b iface hsel hbr hfil
    unfold bridgeStep
    rw [if_pos hsel, hbr]
    dsimp only
    rw [hfil]
    rfl

/-- C9 witness: updating the already-present name br-a in the sorted
two-element list overwrites it in place. -/
theorem bridge_list_sorted_invariant_w :
    upsertOVS [fxBrA, fxBrB] fxBrA2 = [fxBrA, fxBrB].set 0 fxBrA2 ∧
    ([fxBrA, fxBrB].set 0 fxBrA2).length = ([fxBrA, fxBrB] : List OVSConfigExt).length :=
  bridge_list_sorted_invariant.2.1 [fxBrA, fxBrB] fxBrA2 0 (by decide)
    (by
      have hab : fxBrA.Name < fxBrB.Name := by
        rw [String.lt_iff_toList_lt]
        decide
      exact List.Pairwise.cons (by simpa using hab) (List.pairwise_singleton _ _))
    (by decide)
